import Mathlib

/-!
# Verification of the `virtual-scroller` core engine

Shallow embedding of `packages/core/src/index.ts` (class `Virtualizer`),
`packages/core/src/geo/Anchor.ts` (anchor value and proximity-zone manager),
`packages/core/src/utils/ratio.ts` and the small geometry/array/object
utilities, together with proofs about the update cycle, slice adjustment,
height resolution, measurement handling and proximity triggers.

Pixel quantities (offsets, heights, viewport coordinates, device pixel
ratios) are modelled as rationals `ℚ`; list indices and slice boundaries as
integers `ℤ` (JavaScript slice arithmetic can go negative before clamping).
JavaScript `Map`s keyed by item id are modelled as association lists with
`Map.set` replace-or-append semantics.
-/

namespace VirtualScroller

/-! ## Geometry: `geo/Rectangle.ts` -/

/-- `Rectangle` from `geo/Rectangle.ts`: a top coordinate and a height. -/
structure Rectangle where
  top : ℚ
  height : ℚ
deriving Repr, DecidableEq

namespace Rectangle

/-- `getBottom()`: `top + height`. -/
def getBottom (r : Rectangle) : ℚ := r.top + r.height

/-- `doesIntersectWith(other)`: `this.getBottom() > other.getTop() && this.getTop() < other.getBottom()`. -/
def doesIntersectWith (r other : Rectangle) : Bool :=
  decide (r.getBottom > other.top ∧ r.top < other.getBottom)

/-- `translateBy(offset)`: a new rectangle with the top shifted. -/
def translateBy (r : Rectangle) (offset : ℚ) : Rectangle :=
  ⟨r.top + offset, r.height⟩

end Rectangle

/-! ## `utils/ratio.ts` -/

/-- `roundToDevicePixelRatio({cssPixels, dpr}) = Math.ceil(cssPixels * dpr) / dpr`. -/
def roundToDevicePixelRatio (cssPixels dpr : ℚ) : ℚ :=
  (⌈cssPixels * dpr⌉ : ℚ) / dpr

/-! ## Data model -/

/-- `ListItem` from `index.ts`.  The opaque `data` field is only ever read as
`data?.type` (an item-type discriminator string), so it is embedded as
`itemType`. -/
structure ListItem where
  id : String
  itemType : String
  canBeAnchor : Bool
  sortIndex : ℤ
deriving Repr, DecidableEq

/-- The `Anchor` class of `geo/Anchor.ts`, used by the engine both as the
per-item projection record (`RenderedItem` in the spec) and, with the default
fields, as the anchor value. -/
structure Anchor where
  itemId : String
  offset : ℚ
  visible : Bool
  canBeAnchor : Bool
  height : ℚ
deriving Repr, DecidableEq, Inhabited

/-- `getRectInViewport()` on `Anchor`: `new Rectangle(this.offset, this.height)`. -/
def Anchor.getRectInViewport (a : Anchor) : Rectangle :=
  ⟨a.offset, a.height⟩

/-- `Slice` from `index.ts`: `{ start, end }`.  `end` is a Lean keyword, so the
field is named `endIdx`. -/
structure Slice where
  start : ℤ
  endIdx : ℤ
deriving Repr, DecidableEq

/-! ## JavaScript `Map` keyed by item id, as an association list.

`Map.set` updates the value in place for an existing key and appends new keys;
`Map.has`/`Map.get` look the key up; `Map.size` is the number of (distinct)
keys. -/

/-- `Map.has(k)`. -/
def mhas {α : Type} (m : List (String × α)) (k : String) : Bool :=
  m.any (fun p => p.1 == k)

/-- `Map.get(k)` (`undefined` becomes `none`). -/
def mget {α : Type} (m : List (String × α)) (k : String) : Option α :=
  (m.find? (fun p => p.1 == k)).map (·.2)

/-- `Map.set(k, v)`: replace in place if the key is present, append otherwise. -/
def mset {α : Type} (m : List (String × α)) (k : String) (v : α) : List (String × α) :=
  if m.any (fun p => p.1 == k) then
    m.map (fun p => if p.1 == k then (k, v) else p)
  else
    m ++ [(k, v)]

/-! ## Configuration -/

/-- `assumedItemHeight` option: a fixed number or a function of the item type. -/
inductive AssumedItemHeight where
  | const (v : ℚ)
  | byType (f : String → ℚ)

/-- Evaluating the assumed-height policy. -/
def AssumedItemHeight.eval : AssumedItemHeight → String → ℚ
  | .const v, _ => v
  | .byType f, t => f t

/-- The engine options the update cycle reads, plus the captured
`window.devicePixelRatio`. -/
structure Config where
  assumedItemHeight : AssumedItemHeight
  minimumOffscreenToViewportRatio : ℚ
  preferredOffscreenToViewportRatio : ℚ
  devicePixelRatio : ℚ

/-- The committed height ledger `_heights`. -/
abbrev Heights := List (String × ℚ)

/-! ## Height resolution: `_getHeightForItemId` / `_getHeight` -/

/-- `_getHeightForItemId(itemId, itemType)`: the committed height if present
(`isNumber(cachedHeight)`), else the assumed-height policy; the chosen value is
then passed through `roundToDevicePixelRatio`. -/
def getHeightForItemId (cfg : Config) (heights : Heights) (itemId itemType : String) : ℚ :=
  let height :=
    match mget heights itemId with
    | some cached => cached
    | none => cfg.assumedItemHeight.eval itemType
  roundToDevicePixelRatio height cfg.devicePixelRatio

/-- `_getHeight(item)`: `_getHeightForItemId(item.id, item.data?.type)`. -/
def getHeight (cfg : Config) (heights : Heights) (item : ListItem) : ℚ :=
  getHeightForItemId cfg heights item.id item.itemType

/-! ## Slice adjustment: `_adjustSlice` -/

/-- `_adjustSlice(prevSlice, nextSlice, usePreferredBuffer)`, verbatim from
`index.ts`:
* preferred buffer → adopt `nextSlice`;
* `nextSlice` contained in `prevSlice` and `prevSlice` width ≤ 50 → keep
  `prevSlice`;
* disjoint → adopt `nextSlice`;
* otherwise `expansion = max(prevStart − nextStart, nextEnd − prevEnd, 0)` and
  the result is `{ start: min(prevStart + expansion, nextStart),
  end: max(prevEnd − expansion, nextEnd) }`. -/
def adjustSlice (prevSlice nextSlice : Slice) (usePreferredBuffer : Bool) : Slice :=
  if usePreferredBuffer then nextSlice
  else if nextSlice.start ≥ prevSlice.start ∧ nextSlice.endIdx ≤ prevSlice.endIdx ∧
      prevSlice.endIdx - prevSlice.start ≤ 50 then
    prevSlice
  else if nextSlice.start ≥ prevSlice.endIdx ∨ nextSlice.endIdx ≤ prevSlice.start then
    nextSlice
  else
    let expansion := max (max (prevSlice.start - nextSlice.start)
      (nextSlice.endIdx - prevSlice.endIdx)) 0
    ⟨min (prevSlice.start + expansion) nextSlice.start,
      max (prevSlice.endIdx - expansion) nextSlice.endIdx⟩

/-- What §4.4 of the spec says the overlapping-but-not-contained case computes:
grow the previous slice by `expansion` on each boundary (start decreased, end
increased), clamped so the result never exceeds the candidate slice's span. -/
def adjustSliceSpecExpansion (prevSlice nextSlice : Slice) : Slice :=
  let expansion := max (max (prevSlice.start - nextSlice.start)
    (nextSlice.endIdx - prevSlice.endIdx)) 0
  ⟨max (prevSlice.start - expansion) nextSlice.start,
    min (prevSlice.endIdx + expansion) nextSlice.endIdx⟩

/-! ## Projection: `_getDistanceFromTop` / `_getItemsWithPositions` -/

/-- Height of the prefix `list.slice(0, i)` under the current ledger: the sum
`_getDistanceFromTop` computes once the target index is known. -/
def prefixHeight (cfg : Config) (heights : Heights) (list : List ListItem) (i : ℕ) : ℚ :=
  ((list.take i).map (getHeight cfg heights)).sum

/-- `Array.prototype.findIndex`: the index of the first element satisfying the
predicate (`none` for the JavaScript `-1`). -/
def jsFindIndex {α : Type} (p : α → Bool) : List α → Option ℕ
  | [] => none
  | x :: t => if p x then some 0 else (jsFindIndex p t).map (· + 1)

/-- `_getDistanceFromTop(targetItemId)`: `findIndex` over the list; indices
`≤ 0` (including the `-1` of a missing id) give 0, otherwise the sum of
resolved heights of all preceding items. -/
def getDistanceFromTop (cfg : Config) (heights : Heights) (list : List ListItem)
    (targetItemId : String) : ℚ :=
  match jsFindIndex (fun item => item.id == targetItemId) list with
  | none => 0
  | some i => if i = 0 then 0 else prefixHeight cfg heights list i

/-- The anchor value `_getAnchor` produces: an item id and an offset. -/
structure AnchorRef where
  itemId : String
  offset : ℚ
deriving Repr, DecidableEq

/-- The accumulation loop of `_getItemsWithPositions`: walk the list once,
emitting one `Anchor` record per item at the running offset. -/
def projectFrom (cfg : Config) (heights : Heights) : ℚ → List ListItem → List Anchor
  | _, [] => []
  | currentOffset, item :: rest =>
    let h := getHeight cfg heights item
    ⟨item.id, currentOffset, mhas heights item.id, item.canBeAnchor, h⟩ ::
      projectFrom cfg heights (currentOffset + h) rest

/-- `_getItemsWithPositions(anchor)`: empty list for an empty list, else the
full-list walk starting at `anchor.offset − anchorDistanceTop`. -/
def getItemsWithPositions (cfg : Config) (heights : Heights) (list : List ListItem)
    (anchor : AnchorRef) : List Anchor :=
  if list.isEmpty then []
  else projectFrom cfg heights
    (anchor.offset - getDistanceFromTop cfg heights list anchor.itemId) list

/-! ## Buffered viewport and candidate slice -/

/-- `_getBufferedViewport(viewportRect, ratio)`. -/
def getBufferedViewport (viewportRect : Rectangle) (ratio : ℚ) : Rectangle :=
  let bufferHeight := ratio * viewportRect.height
  ⟨viewportRect.top - bufferHeight, viewportRect.height + 2 * bufferHeight⟩

/-- Indices (in full-list order) of the projected items whose rectangle
intersects the target buffer.  The filter in `_getRenderCandidates` keeps the
items themselves; since every projected `Anchor` is a distinct object,
`indexOf` in `_getSliceForCandidates` recovers exactly these positions. -/
def candidateIndices (allItems : List Anchor) (targetBufferRect : Rectangle) : List ℕ :=
  (List.range allItems.length).filter
    (fun i => ((allItems.getD i default).getRectInViewport).doesIntersectWith targetBufferRect)

/-- `_getSliceForCandidates(candidates, allItems)`: `{0, 0}` when no candidate
survives, else the index of the first candidate and the index of the last
candidate plus one. -/
def getSliceForCandidates (allItems : List Anchor) (targetBufferRect : Rectangle) : Slice :=
  match candidateIndices allItems targetBufferRect with
  | [] => ⟨0, 0⟩
  | is => ⟨(is.headD 0 : ℕ), (is.getLastD 0 : ℕ) + 1⟩

/-- JavaScript `Array.prototype.slice` index resolution: negative indices count
from the end, then clamp into `[0, length]`. -/
def jsSliceIdx (n : ℕ) (i : ℤ) : ℕ :=
  if i < 0 then (max (n + i) 0).toNat else min i.toNat n

/-- JavaScript `array.slice(start, end)`. -/
def jsSlice {α : Type} (l : List α) (s e : ℤ) : List α :=
  (l.drop (jsSliceIdx l.length s)).take (jsSliceIdx l.length e - jsSliceIdx l.length s)

/-! ## Engine state and anchor resolution -/

/-- The mutable fields of `Virtualizer` the update cycle reads and writes.
The node-registration table `_cells` holds external DOM nodes and is modelled
separately for the measurement path. `_lastUpdateReason` is either
`HEIGHT_CHANGE` or `undefined`, hence a `Bool`. -/
structure EngineState where
  list : List ListItem
  renderedItems : List Anchor
  listHeightWithHeadRoom : ℚ
  heights : Heights
  pendingHeightUpdates : Heights
  slice : Slice
  isIdle : Bool
  isInitialAnchoring : Bool
  lastUpdateReasonHeightChange : Bool
deriving DecidableEq

/-- The memoized `_itemMap` lookup: a JavaScript `Map` built with `set` over
the list in order, so for duplicate ids the last occurrence wins. -/
def itemMapGet (list : List ListItem) (id : String) : Option ListItem :=
  list.reverse.find? (fun item => item.id == id)

/-- One entry of `_finalRenderedItems`: the current list item for a rendered
state's id, with the rendered offset and visibility. -/
structure FinalRenderedItem where
  item : ListItem
  offset : ℚ
  visible : Bool
deriving Repr, DecidableEq

/-- `_finalRenderedItems` / `_getFinalRenderedItems`: `filterMap` of the
rendered states against the current item map (rendered ids absent from the
current list are dropped). -/
def getFinalRenderedItems (st : EngineState) : List FinalRenderedItem :=
  st.renderedItems.filterMap (fun state =>
    (itemMapGet st.list state.itemId).map (fun item => ⟨item, state.offset, state.visible⟩))

/-- `_getAnchorItemCandidates`: currently rendered items whose (current) list
item allows anchoring and whose id has a committed height. -/
def getAnchorItemCandidates (st : EngineState) : List FinalRenderedItem :=
  (getFinalRenderedItems st).filter
    (fun fri => fri.item.canBeAnchor && mhas st.heights fri.item.id)

/-- `_getAnchor()`: the first anchor candidate with its current offset; else
the first item of the full list at offset 0; else no anchor. -/
def getAnchor (st : EngineState) : Option AnchorRef :=
  match (getAnchorItemCandidates st).head? with
  | some fri => some ⟨fri.item.id, fri.offset⟩
  | none =>
    match st.list.head? with
    | some item => some ⟨item.id, 0⟩
    | none => none

/-! ## Heights-ready, list height, positioning -/

/-- `_getIsHeightsReady(renderedItems)`: vacuously true for an empty rendered
set, else every rendered id must have a committed height. -/
def getIsHeightsReady (heights : Heights) (renderedItems : List Anchor) : Bool :=
  renderedItems.isEmpty || renderedItems.all (fun a => mhas heights a.itemId)

/-- `_getHeightBetweenItems(first, last)`: bottom of the last rectangle minus
top of the first, 0 when either is missing. -/
def getHeightBetweenItems (firstItemState lastItemState : Option Anchor) : ℚ :=
  match firstItemState, lastItemState with
  | some f, some l => l.getRectInViewport.getBottom - f.getRectInViewport.top
  | _, _ => 0

/-- The `Positioning` snapshot built in `_updatePositioning`. -/
structure Positioning where
  viewportRect : Rectangle
  listRect : Rectangle
  listLength : ℕ
  renderedItems : List (String × Rectangle)
deriving Repr, DecidableEq

/-- `_updatePositioning`: publishes nothing when the rendered heights are not
all committed; otherwise builds the snapshot (note: the per-item heights are
resolved with the *default* empty item type, as in
`this._getHeightForItemId(item.itemId)`). -/
def updatePositioning (cfg : Config) (heights : Heights) (list : List ListItem)
    (renderedItems : List Anchor) (relativeViewportRect : Rectangle)
    (firstItem : Option Anchor) (newListHeight : ℚ) : Option Positioning :=
  if getIsHeightsReady heights renderedItems then
    some
      { viewportRect := relativeViewportRect
        listRect := ⟨(firstItem.map (fun f => f.getRectInViewport.top)).getD 0, newListHeight⟩
        listLength := list.length
        renderedItems := renderedItems.map (fun item =>
          (item.itemId, (⟨item.offset, getHeightForItemId cfg heights item.itemId ""⟩ : Rectangle))) }
  else none

/-! ## The update cycle -/

/-- What one cycle reports to the outside: whether `onChange` fired, and the
positioning snapshot fed to `onPositionUpdate` and the proximity manager
(`none` when no snapshot was published). -/
structure CycleOutput where
  onChangeFired : Bool
  positioning : Option Positioning
deriving DecidableEq

/-- The silent outcome: nothing fired, nothing published. -/
def CycleOutput.silent : CycleOutput := ⟨false, none⟩

/-- The record `_getRenderCandidates` returns. -/
structure RenderCandidates where
  allItemsWithPositions : List Anchor
  newRenderedItems : List Anchor
  slice : Slice
  arePreferredItemsRendered : Bool
deriving DecidableEq

/-- The buffer rectangle `_getRenderCandidates` targets: the preferred buffer
only when idle and past the initial-anchoring phase, else the minimum buffer. -/
def targetBuffer (cfg : Config) (st : EngineState) (relativeViewportRect : Rectangle) : Rectangle :=
  if st.isIdle && !st.isInitialAnchoring then
    getBufferedViewport relativeViewportRect cfg.preferredOffscreenToViewportRatio
  else
    getBufferedViewport relativeViewportRect cfg.minimumOffscreenToViewportRatio

/-- `_getRenderCandidates(anchor, relativeViewportRect)`: project all items,
filter by the target buffered viewport, derive the candidate slice, adjust it
against the persisted slice and cut the new rendered sub-range. -/
def getRenderCandidates (cfg : Config) (st : EngineState) (anchor : AnchorRef)
    (relativeViewportRect : Rectangle) : RenderCandidates :=
  let usePreferredBuffer := st.isIdle && !st.isInitialAnchoring
  let targetBufferRect := targetBuffer cfg st relativeViewportRect
  let allItemsWithPositions := getItemsWithPositions cfg st.heights st.list anchor
  let candidateSlice := getSliceForCandidates allItemsWithPositions targetBufferRect
  let newSlice := adjustSlice st.slice candidateSlice usePreferredBuffer
  let newRenderedItems := jsSlice allItemsWithPositions newSlice.start newSlice.endIdx
  ⟨allItemsWithPositions, newRenderedItems, newSlice, usePreferredBuffer⟩

/-- `_updateRenderedItems(anchor, relativeViewportRect)`: run
`_getRenderCandidates`, store the new rendered items / list height / flags,
decide `onChange` (`_shouldTriggerOnChange`), reset the update reason and run
`_updatePositioning`. -/
def updateRenderedItems (cfg : Config) (st : EngineState) (anchor : AnchorRef)
    (relativeViewportRect : Rectangle) : EngineState × CycleOutput :=
  let rc := getRenderCandidates cfg st anchor relativeViewportRect
  let listHeightWithHeadroom :=
    getHeightBetweenItems rc.allItemsWithPositions.head? rc.allItemsWithPositions.getLast?
  let areHeightsReadyForRender := getIsHeightsReady st.heights rc.newRenderedItems
  let sliceChanged := !(decide (st.slice = rc.slice))
  let fired := sliceChanged || st.lastUpdateReasonHeightChange
  let st' : EngineState :=
    { st with
      renderedItems := rc.newRenderedItems
      listHeightWithHeadRoom := listHeightWithHeadroom
      isInitialAnchoring := if areHeightsReadyForRender then false else st.isInitialAnchoring
      slice := if fired then rc.slice else st.slice
      lastUpdateReasonHeightChange := false }
  (st', ⟨fired, updatePositioning cfg st.heights st.list rc.newRenderedItems relativeViewportRect
    rc.allItemsWithPositions.head? listHeightWithHeadroom⟩)

/-- `_update()`: abort (state unchanged, nothing emitted) when the viewport or
the relative viewport rectangle is unavailable or no anchor resolves; otherwise
run `_updateRenderedItems`.  (`_measureHeights` only re-reads registered DOM
nodes; with no registrations it is a no-op and is not part of this pure
model.) -/
def update (cfg : Config) (st : EngineState) (relativeViewportRect : Option Rectangle) :
    EngineState × CycleOutput :=
  match relativeViewportRect with
  | none => (st, CycleOutput.silent)
  | some vp =>
    match getAnchor st with
    | none => (st, CycleOutput.silent)
    | some anchor => updateRenderedItems cfg st anchor vp

/-- `setList(newList)`: replace the list (the scheduled recomputation is the
next `update`). -/
def setList (st : EngineState) (newList : List ListItem) : EngineState :=
  { st with list := newList }

/-- `_updateItemHeight(itemId, height)`: stage the measurement in the pending
buffer; if every rendered item has a committed or pending height, or the
pending buffer exceeds 50 entries, commit all pending entries, clear the
buffer, tag the reason as height-change and run `_update`. -/
def updateItemHeight (cfg : Config) (st : EngineState)
    (relativeViewportRect : Option Rectangle) (itemId : String) (height : ℚ) :
    EngineState × CycleOutput :=
  let pending' := mset st.pendingHeightUpdates itemId height
  let allRenderedHaveHeights := st.renderedItems.all
    (fun a => mhas st.heights a.itemId || mhas pending' a.itemId)
  if allRenderedHaveHeights || pending'.length > 50 then
    let heights' := pending'.foldl (fun m p => mset m p.1 p.2) st.heights
    update cfg
      { st with
        heights := heights'
        pendingHeightUpdates := []
        lastUpdateReasonHeightChange := true }
      relativeViewportRect
  else
    ({ st with pendingHeightUpdates := pending' }, CycleOutput.silent)

/-! ## Measurement handling over JavaScript numbers (`_measureElement`)

`entry.contentRect.height` can be any IEEE double; the reject test in
`_measureElement` is `typeof newHeightRaw !== 'number' || newHeightRaw < 0`.
To settle what happens on `NaN` and the infinities the raw value is modelled
as a JavaScript number value. -/

/-- A JavaScript number: a finite value, `NaN`, or an infinity. -/
inductive JSNum where
  | num (q : ℚ)
  | nan
  | posInf
  | negInf
deriving Repr, DecidableEq

/-- `x < 0` on JavaScript numbers (`NaN < 0` is `false`). -/
def JSNum.ltZero : JSNum → Bool
  | .num q => decide (q < 0)
  | .nan => false
  | .posInf => false
  | .negInf => true

/-- `Math.floor` (`Math.floor(NaN) = NaN`, `Math.floor(±∞) = ±∞`). -/
def JSNum.floorJS : JSNum → JSNum
  | .num q => .num ⌊q⌋
  | x => x

/-- Strict inequality `!==` on JavaScript numbers: `NaN !== x` always holds. -/
def JSNum.strictNe : JSNum → JSNum → Bool
  | .nan, _ => true
  | _, .nan => true
  | .num a, .num b => decide (a ≠ b)
  | .posInf, .posInf => false
  | .negInf, .negInf => false
  | _, _ => true

/-- Height maps as seen by the measurement path, with raw JavaScript values. -/
abbrev JSHeights := List (String × JSNum)

/-- The staging-and-flush step `_updateItemHeight` performs on the committed
map and the pending buffer (the follow-up `_update()` call after a flush does
not touch either map).  Returns the committed map, the pending buffer and
whether a flush happened. -/
def updateItemHeightJS (heights pending : JSHeights) (renderedIds : List String)
    (itemId : String) (height : JSNum) : JSHeights × JSHeights × Bool :=
  let pending' := mset pending itemId height
  let allRenderedHaveHeights := renderedIds.all
    (fun id => mhas heights id || mhas pending' id)
  if allRenderedHaveHeights || pending'.length > 50 then
    (pending'.foldl (fun m p => mset m p.1 p.2) heights, [], true)
  else
    (heights, pending', false)

/-- `_measureElement(node, entry)` for a registered node (`itemId` found in
`_cells`) and a defined entry: reject when the raw height is not a number
(`none`) or is `< 0`; otherwise floor it, compare against the floored committed
height with `!==`, and on a change run `_handleHeightChanged` →
`_updateItemHeight`. -/
def measureElementStep (heights pending : JSHeights) (renderedIds : List String)
    (itemId : String) (rawHeight : Option JSNum) : JSHeights × JSHeights × Bool :=
  match rawHeight with
  | none => (heights, pending, false)
  | some raw =>
    if raw.ltZero then (heights, pending, false)
    else
      let newHeight := raw.floorJS
      let heightDidChange :=
        match (mget heights itemId).map JSNum.floorJS with
        | none => true
        | some oldHeight => newHeight.strictNe oldHeight
      if heightDidChange then
        match mget heights itemId with
        | none => updateItemHeightJS heights pending renderedIds itemId newHeight
        | some v =>
          if v.strictNe newHeight then
            updateItemHeightJS heights pending renderedIds itemId newHeight
          else (heights, pending, false)
      else (heights, pending, false)

/-! ## Proximity zones (`geo/Anchor.ts`, proximity part) -/

/-- `ProximityState`. -/
inductive Proximity where
  | inside
  | outside
deriving Repr, DecidableEq

/-- `ProximityTriggerCause`. -/
inductive ProximityTriggerCause where
  | movement
  | listUpdate
  | initialPosition
deriving Repr, DecidableEq

/-- Per-zone mutable state `{ proximity, listLength }`, both initially
`undefined`. -/
structure ZoneState where
  proximity : Option Proximity
  listLength : Option ℕ
deriving Repr, DecidableEq

/-- `calculateProximityTrigger(prevProximity, prevListLength, currentProximity,
currentListLength)`: the trigger table.  `!prevProximity` holds exactly for the
unset state, and `currentListLength !== prevListLength` compares a number with
a number-or-`undefined`. -/
def calculateProximityTrigger (prevProximity : Option Proximity) (prevListLength : Option ℕ)
    (currentProximity : Proximity) (currentListLength : ℕ) : Option ProximityTriggerCause :=
  if prevProximity = none ∧ currentProximity = .inside then
    some .initialPosition
  else if prevProximity = some .outside ∧ currentProximity = .inside then
    some .movement
  else if prevProximity = some .inside ∧ currentProximity = .inside ∧
      ¬ prevListLength = some currentListLength then
    some .listUpdate
  else
    none

/-- One zone's step inside `handlePositioningUpdate`: evaluate the condition on
the snapshot's list and viewport rectangles, derive the trigger cause, always
persist the new proximity and list length, and report the cause (the callback
fires iff it is not `null`). -/
def zoneStep (condition : Rectangle → Rectangle → Bool) (state : ZoneState)
    (positioning : Positioning) : ZoneState × Option ProximityTriggerCause :=
  let currentProximity : Proximity :=
    if condition positioning.listRect positioning.viewportRect then .inside else .outside
  let currentListLength := positioning.listLength
  let triggerCause := calculateProximityTrigger state.proximity state.listLength
    currentProximity currentListLength
  (⟨some currentProximity, some currentListLength⟩, triggerCause)

/-! ## Concrete scenarios used by counterexamples and witnesses

`exCfg` etc.: assumed height 10, minimum and preferred ratios 0, device pixel
ratio 1; lists of identical anchorable items.  `idemCfg` etc.: the same with
preferred ratio 1 and both item heights already committed, used to exercise
the idle/initial-anchoring buffer switch. -/

def exCfg : Config := ⟨.const 10, 0, 0, 1⟩

def exList4 : List ListItem :=
  [⟨"0", "", true, 0⟩, ⟨"1", "", true, 1⟩, ⟨"2", "", true, 2⟩, ⟨"3", "", true, 3⟩]

def exList2 : List ListItem := [⟨"0", "", true, 0⟩, ⟨"1", "", true, 1⟩]

def exProj4 : List Anchor :=
  [⟨"0", 0, false, true, 10⟩, ⟨"1", 10, false, true, 10⟩,
    ⟨"2", 20, false, true, 10⟩, ⟨"3", 30, false, true, 10⟩]

def exProj2 : List Anchor := [⟨"0", 0, false, true, 10⟩, ⟨"1", 10, false, true, 10⟩]

def exState0 : EngineState := ⟨exList4, [], 0, [], [], ⟨0, 0⟩, true, true, false⟩

def exState1 : EngineState := ⟨exList4, exProj4, 40, [], [], ⟨0, 4⟩, true, true, false⟩

def exState1b : EngineState := ⟨exList2, exProj4, 40, [], [], ⟨0, 4⟩, true, true, false⟩

def idemCfg : Config := ⟨.const 10, 0, 1, 1⟩

def idemHeights : Heights := [("0", 10), ("1", 10)]

def idemProj : List Anchor := [⟨"0", 0, true, true, 10⟩, ⟨"1", 10, true, true, 10⟩]

def idemState0 : EngineState := ⟨exList2, [], 0, idemHeights, [], ⟨0, 0⟩, true, true, false⟩

def idemState1 : EngineState :=
  ⟨exList2, [⟨"0", 0, true, true, 10⟩], 20, idemHeights, [], ⟨0, 1⟩, true, false, false⟩

/-- The idempotence-witness start state: like `idemState0` but not idle, so the
first cycle does not change the buffer selection. -/
def idemStateW : EngineState := ⟨exList2, [], 0, idemHeights, [], ⟨0, 0⟩, false, true, false⟩

def idemStateW1 : EngineState :=
  ⟨exList2, [⟨"0", 0, true, true, 10⟩], 20, idemHeights, [], ⟨0, 1⟩, false, false, false⟩

end VirtualScroller

namespace VirtualScroller

/-! ## Claims C4, C5, C8 (slice adjustment and height resolution) -/

/-- C5: whenever the previous slice contains the candidate slice and the
previous slice's width is at most 50, `_adjustSlice` with the minimum buffer
returns the previous slice unchanged. -/
theorem C5_contained_keeps_prev_slice (prevSlice nextSlice : Slice)
    (hs : prevSlice.start ≤ nextSlice.start)
    (he : nextSlice.endIdx ≤ prevSlice.endIdx)
    (hw : prevSlice.endIdx - prevSlice.start ≤ 50) :
    adjustSlice prevSlice nextSlice false = prevSlice := by
  unfold adjustSlice
  simp only [Bool.false_eq_true, if_false]
  rw [if_pos ⟨hs, he, hw⟩]

/-- C5 witness: previous slice `[10,20)` with candidate `[12,18)` stays `[10,20)`. -/
theorem C5_contained_keeps_prev_slice_witness :
    adjustSlice ⟨10, 20⟩ ⟨12, 18⟩ false = ⟨10, 20⟩ :=
  C5_contained_keeps_prev_slice ⟨10, 20⟩ ⟨12, 18⟩ (by decide) (by decide) (by decide)

/-- C4 counterexample: for previous slice `[10,50)` and candidate `[8,20)`
(overlapping, not contained, minimum buffer), the code returns `[8,48)`:
the end boundary *decreases* by the expansion (50 → 48) instead of growing,
and the result is not clamped inside the candidate span `[8,20)` — it differs
from the slice the spec's formula (`adjustSliceSpecExpansion`) produces. -/
theorem C4_counterexample :
    adjustSlice ⟨10, 50⟩ ⟨8, 20⟩ false = ⟨8, 48⟩ ∧
    adjustSliceSpecExpansion ⟨10, 50⟩ ⟨8, 20⟩ = ⟨8, 20⟩ ∧
    adjustSlice ⟨10, 50⟩ ⟨8, 20⟩ false ≠ adjustSliceSpecExpansion ⟨10, 50⟩ ⟨8, 20⟩ ∧
    ¬ (adjustSlice ⟨10, 50⟩ ⟨8, 20⟩ false).endIdx ≤ (20 : ℤ) := by
  refine ⟨by decide, by decide, by decide, by decide⟩

/-- C4 amended: in the overlapping-but-not-contained case with the minimum
buffer, the adjusted slice is
`{ start: min(prevStart + expansion, candStart), end: max(prevEnd − expansion, candEnd) }`
with `expansion = max(prevStart − candStart, candEnd − prevEnd, 0)`: each
boundary of the previous slice moves *toward* the corresponding candidate
boundary, clamped so the result always covers the candidate slice's span
(rather than never exceeding it). -/
theorem C4_overlap_expansion (prevSlice nextSlice : Slice)
    (hnc : ¬ (prevSlice.start ≤ nextSlice.start ∧ nextSlice.endIdx ≤ prevSlice.endIdx ∧
      prevSlice.endIdx - prevSlice.start ≤ 50))
    (hov : nextSlice.start < prevSlice.endIdx ∧ prevSlice.start < nextSlice.endIdx) :
    adjustSlice prevSlice nextSlice false =
      (let expansion := max (max (prevSlice.start - nextSlice.start)
        (nextSlice.endIdx - prevSlice.endIdx)) 0
      (⟨min (prevSlice.start + expansion) nextSlice.start,
        max (prevSlice.endIdx - expansion) nextSlice.endIdx⟩ : Slice)) ∧
    (adjustSlice prevSlice nextSlice false).start ≤ nextSlice.start ∧
    nextSlice.endIdx ≤ (adjustSlice prevSlice nextSlice false).endIdx := by
  have hd : ¬ (nextSlice.start ≥ prevSlice.endIdx ∨ nextSlice.endIdx ≤ prevSlice.start) := by
    omega
  constructor
  · unfold adjustSlice
    simp only [Bool.false_eq_true, if_false]
    rw [if_neg (by exact fun h => hnc ⟨h.1, h.2.1, h.2.2⟩), if_neg hd]
  · unfold adjustSlice
    simp only [Bool.false_eq_true, if_false]
    rw [if_neg (by exact fun h => hnc ⟨h.1, h.2.1, h.2.2⟩), if_neg hd]
    constructor
    · simp only []
      omega
    · simp only []
      omega

/-- C4 witness: previous `[10,50)`, candidate `[8,20)`: expansion is 2, the
code result is `[min(12,8), max(48,20)) = [8,48)`, which covers the candidate
span. -/
theorem C4_overlap_expansion_witness :
    adjustSlice ⟨10, 50⟩ ⟨8, 20⟩ false = ⟨8, 48⟩ ∧
    (adjustSlice ⟨10, 50⟩ ⟨8, 20⟩ false).start ≤ (8 : ℤ) ∧
    (20 : ℤ) ≤ (adjustSlice ⟨10, 50⟩ ⟨8, 20⟩ false).endIdx := by
  have h := C4_overlap_expansion ⟨10, 50⟩ ⟨8, 20⟩ (by decide) (by decide)
  exact ⟨h.1, h.2.1, h.2.2⟩

/-- C8 counterexample: with a committed height of `10.3` for item `a` and a
device pixel ratio of 1, `_getHeightForItemId` returns `⌈10.3⌉ = 11`, not the
committed height unchanged: the device-pixel rounding is applied to committed
heights too, not only to assumed heights. -/
theorem C8_counterexample :
    getHeightForItemId ⟨.const 100, 0, 0, 1⟩ [("a", (103 : ℚ) / 10)] "a" "" = 11 ∧
    getHeightForItemId ⟨.const 100, 0, 0, 1⟩ [("a", (103 : ℚ) / 10)] "a" "" ≠ (103 : ℚ) / 10 := by
  have hc : (⌈(103 : ℚ) / 10⌉ : ℤ) = 11 := by
    rw [Int.ceil_eq_iff]
    norm_num
  have h : getHeightForItemId ⟨.const 100, 0, 0, 1⟩ [("a", (103 : ℚ) / 10)] "a" "" = 11 := by
    have hm : mget [("a", (103 : ℚ) / 10)] "a" = some ((103 : ℚ) / 10) := rfl
    simp only [getHeightForItemId, hm, roundToDevicePixelRatio, mul_one, hc]
    norm_num
  refine ⟨h, ?_⟩
  rw [h]
  norm_num

/-- C8 amended: height resolution picks the committed height when present and
otherwise evaluates the assumed-height policy, and in *both* cases rounds the
chosen value upward to the nearest device-pixel-aligned value,
`ceil(px·dpr)/dpr` — the committed height is not returned unchanged. -/
theorem C8_height_resolution (cfg : Config) (heights : Heights) (itemId itemType : String) :
    getHeightForItemId cfg heights itemId itemType =
      roundToDevicePixelRatio
        ((mget heights itemId).getD (cfg.assumedItemHeight.eval itemType))
        cfg.devicePixelRatio ∧
    (∀ h, mget heights itemId = some h →
      getHeightForItemId cfg heights itemId itemType =
        roundToDevicePixelRatio h cfg.devicePixelRatio) ∧
    (mget heights itemId = none →
      getHeightForItemId cfg heights itemId itemType =
        roundToDevicePixelRatio (cfg.assumedItemHeight.eval itemType) cfg.devicePixelRatio) := by
  refine ⟨?_, ?_, ?_⟩
  · unfold getHeightForItemId
    cases h : mget heights itemId <;> simp [h]
  · intro hv hh
    unfold getHeightForItemId
    rw [hh]
  · intro hh
    unfold getHeightForItemId
    rw [hh]

/-- C8 witness: the amended statement evaluated at the counterexample input:
the committed `10.3` is resolved to `roundToDevicePixelRatio 10.3 1 = 11`. -/
theorem C8_height_resolution_witness :
    getHeightForItemId ⟨.const 100, 0, 0, 1⟩ [("a", (103 : ℚ) / 10)] "a" "" =
      roundToDevicePixelRatio ((103 : ℚ) / 10) 1 ∧
    roundToDevicePixelRatio ((103 : ℚ) / 10) 1 = 11 := by
  refine ⟨(C8_height_resolution ⟨.const 100, 0, 0, 1⟩ [("a", (103 : ℚ) / 10)] "a" "").2.1
    ((103 : ℚ) / 10) rfl, ?_⟩
  have hc : (⌈(103 : ℚ) / 10⌉ : ℤ) = 11 := by
    rw [Int.ceil_eq_iff]
    norm_num
  simp only [roundToDevicePixelRatio, mul_one, hc]
  norm_num

/-- C7: the derived proximity trigger follows the table exactly — unset→INSIDE
gives `initial_position`, OUTSIDE→INSIDE gives `movement`, INSIDE→INSIDE with a
changed list length gives `list_update`, every other transition (including
INSIDE→OUTSIDE and anything ending OUTSIDE) gives no trigger — and the zone's
stored proximity and list length are always set to the current values. -/
theorem C7_proximity_trigger_table (condition : Rectangle → Rectangle → Bool)
    (state : ZoneState) (positioning : Positioning) :
    ((zoneStep condition state positioning).1 =
      ⟨some (if condition positioning.listRect positioning.viewportRect then .inside else .outside),
        some positioning.listLength⟩) ∧
    (state.proximity = none →
      condition positioning.listRect positioning.viewportRect = true →
      (zoneStep condition state positioning).2 = some .initialPosition) ∧
    (state.proximity = some .outside →
      condition positioning.listRect positioning.viewportRect = true →
      (zoneStep condition state positioning).2 = some .movement) ∧
    (state.proximity = some .inside →
      condition positioning.listRect positioning.viewportRect = true →
      state.listLength ≠ some positioning.listLength →
      (zoneStep condition state positioning).2 = some .listUpdate) ∧
    (state.proximity = some .inside →
      condition positioning.listRect positioning.viewportRect = true →
      state.listLength = some positioning.listLength →
      (zoneStep condition state positioning).2 = none) ∧
    (condition positioning.listRect positioning.viewportRect = false →
      (zoneStep condition state positioning).2 = none) := by
  obtain ⟨p, l⟩ := state
  by_cases hl : l = some positioning.listLength <;>
    cases hb : condition positioning.listRect positioning.viewportRect <;>
      rcases p with _ | (_ | _) <;>
        simp_all [zoneStep, calculateProximityTrigger]

/-- C7 witness: a zone that stays INSIDE while the list length changes from
100 to 150 persists the new state and fires `list_update`; the same transition
with an unchanged length fires nothing. -/
theorem C7_proximity_trigger_table_witness :
    (zoneStep (fun _ _ => true) ⟨some .inside, some 100⟩
        ⟨⟨0, 10⟩, ⟨0, 100⟩, 150, []⟩).1 = ⟨some .inside, some 150⟩ ∧
    (zoneStep (fun _ _ => true) ⟨some .inside, some 100⟩
        ⟨⟨0, 10⟩, ⟨0, 100⟩, 150, []⟩).2 = some .listUpdate ∧
    (zoneStep (fun _ _ => true) ⟨some .inside, some 100⟩
        ⟨⟨0, 10⟩, ⟨0, 100⟩, 100, []⟩).2 = none := by
  refine ⟨?_, ?_, ?_⟩
  · exact (C7_proximity_trigger_table (fun _ _ => true) ⟨some .inside, some 100⟩
      ⟨⟨0, 10⟩, ⟨0, 100⟩, 150, []⟩).1
  · exact (C7_proximity_trigger_table (fun _ _ => true) ⟨some .inside, some 100⟩
      ⟨⟨0, 10⟩, ⟨0, 100⟩, 150, []⟩).2.2.2.1 rfl rfl (by decide)
  · exact (C7_proximity_trigger_table (fun _ _ => true) ⟨some .inside, some 100⟩
      ⟨⟨0, 10⟩, ⟨0, 100⟩, 100, []⟩).2.2.2.2.1 rfl rfl rfl

/-- C3, failing inputs: the reject test in `_measureElement` is
`typeof h !== 'number' || h < 0`, which lets `NaN` and `+Infinity` through
(`NaN < 0` and `Infinity < 0` are both `false`).  With an empty ledger, a
registered item `a` and rendered set `{a, b}`, a reported height of `NaN` is
*staged into the pending buffer* (and with rendered set `{a}` the flush then
*commits* `NaN` to the ledger) rather than being discarded; likewise
`+Infinity`.  Genuinely negative inputs (`-5`, `-Infinity`) are discarded. -/
theorem C3_nonfinite_not_discarded :
    measureElementStep [] [] ["a", "b"] "a" (some .nan) = ([], [("a", .nan)], false) ∧
    measureElementStep [] [] ["a", "b"] "a" (some .posInf) = ([], [("a", .posInf)], false) ∧
    measureElementStep [] [] ["a"] "a" (some .nan) = ([("a", .nan)], [], true) ∧
    measureElementStep [] [] ["a", "b"] "a" (some (.num (-5))) = ([], [], false) ∧
    measureElementStep [] [] ["a", "b"] "a" (some .negInf) = ([], [], false) := by
  refine ⟨by decide, by decide, by decide, by decide, by decide⟩

/-! ## Auxiliary lemmas: map model -/

theorem mhas_eq_false_iff {α : Type} (m : List (String × α)) (k : String) :
    mhas m k = false ↔ ∀ p ∈ m, p.1 ≠ k := by
  simp [mhas, List.any_eq_false]

theorem mset_of_not_mem {α : Type} (m : List (String × α)) (k : String) (v : α)
    (h : mhas m k = false) : mset m k v = m ++ [(k, v)] := by
  unfold mhas at h
  simp [mset, h]

theorem mset_cons_of_ne {α : Type} (p : String × α) (t : List (String × α)) (k : String)
    (v : α) (hp : p.1 ≠ k) : mset (p :: t) k v = p :: mset t k v := by
  have hp' : (p.1 == k) = false := by simp [hp]
  by_cases ht : t.any (fun q => q.1 == k)
  · simp [mset, List.any_cons, hp', ht, hp]
  · simp [mset, List.any_cons, hp', ht, hp]

theorem mget_cons_of_ne {α : Type} (p : String × α) (t : List (String × α)) (k : String)
    (hp : p.1 ≠ k) : mget (p :: t) k = mget t k := by
  have hp' : (p.1 == k) = false := by simp [hp]
  simp [mget, List.find?_cons, hp']

theorem mget_mset_self {α : Type} (m : List (String × α)) (k : String) (v : α) :
    mget (mset m k v) k = some v := by
  induction m with
  | nil => simp [mset, mget]
  | cons p t ih =>
    by_cases hp : p.1 = k
    · have hp' : (p.1 == k) = true := by simp [hp]
      have h2 : mset (p :: t) k v =
          (k, v) :: t.map (fun q => if q.1 == k then (k, v) else q) := by
        simp [mset, List.any_cons, hp', hp]
      rw [h2]
      simp [mget]
    · rw [mset_cons_of_ne p t k v hp, mget_cons_of_ne _ _ _ hp]
      exact ih

/-! ## Auxiliary lemmas: the cycle's state fields -/

theorem updateRenderedItems_fields (cfg : Config) (st : EngineState) (anchor : AnchorRef)
    (vp : Rectangle) :
    (updateRenderedItems cfg st anchor vp).1.list = st.list ∧
    (updateRenderedItems cfg st anchor vp).1.heights = st.heights ∧
    (updateRenderedItems cfg st anchor vp).1.pendingHeightUpdates = st.pendingHeightUpdates ∧
    (updateRenderedItems cfg st anchor vp).1.isIdle = st.isIdle ∧
    (updateRenderedItems cfg st anchor vp).1.lastUpdateReasonHeightChange = false ∧
    (updateRenderedItems cfg st anchor vp).1.renderedItems =
      (getRenderCandidates cfg st anchor vp).newRenderedItems ∧
    (updateRenderedItems cfg st anchor vp).2.onChangeFired =
      (!(decide (st.slice = (getRenderCandidates cfg st anchor vp).slice)) ||
        st.lastUpdateReasonHeightChange) ∧
    (updateRenderedItems cfg st anchor vp).2.positioning =
      updatePositioning cfg st.heights st.list
        (getRenderCandidates cfg st anchor vp).newRenderedItems vp
        (getRenderCandidates cfg st anchor vp).allItemsWithPositions.head?
        (getHeightBetweenItems (getRenderCandidates cfg st anchor vp).allItemsWithPositions.head?
          (getRenderCandidates cfg st anchor vp).allItemsWithPositions.getLast?) := by
  refine ⟨rfl, rfl, rfl, rfl, rfl, rfl, rfl, rfl⟩

theorem updateRenderedItems_slice (cfg : Config) (st : EngineState) (anchor : AnchorRef)
    (vp : Rectangle) :
    (updateRenderedItems cfg st anchor vp).1.slice =
      (getRenderCandidates cfg st anchor vp).slice := by
  show (if _ then _ else st.slice) = _
  by_cases hc : st.slice = (getRenderCandidates cfg st anchor vp).slice
  · split <;> simp [hc]
  · simp [hc]

theorem getAnchor_isSome_of_ne_nil (st : EngineState) (h : st.list ≠ []) :
    ∃ a, getAnchor st = some a := by
  unfold getAnchor
  cases hh : (getAnchorItemCandidates st).head? with
  | some fri => exact ⟨_, rfl⟩
  | none =>
    cases hl : st.list with
    | nil => exact absurd hl h
    | cons x t => exact ⟨_, rfl⟩

theorem update_of_anchor (cfg : Config) (st : EngineState) (vp : Rectangle) (a : AnchorRef)
    (h : getAnchor st = some a) :
    update cfg st (some vp) = updateRenderedItems cfg st a vp := by
  unfold update
  rw [h]

/-! ## Claim C6 (height-change flush at the 50-entry threshold) -/

/-- C6: when a 51st distinct item stages a height while no other flush
condition holds (some rendered item still has neither a committed nor a staged
height), the buffer exceeds the 50-entry threshold and `_updateItemHeight`
flushes: every pending entry (including the new one) is committed to the
ledger, the pending buffer is cleared, and — the recomputation being tagged
height-change — `onChange` fires regardless of whether the slice changed. -/
theorem C6_flush_threshold (cfg : Config) (st : EngineState) (vp : Rectangle)
    (itemId : String) (height : ℚ)
    (hnew : mhas st.pendingHeightUpdates itemId = false)
    (hfull : st.pendingHeightUpdates.length = 50)
    (hnotall : st.renderedItems.all
      (fun a => mhas st.heights a.itemId ||
        mhas (mset st.pendingHeightUpdates itemId height) a.itemId) = false)
    (hlist : st.list ≠ []) :
    (updateItemHeight cfg st (some vp) itemId height).1.pendingHeightUpdates = [] ∧
    (updateItemHeight cfg st (some vp) itemId height).1.heights =
      (mset st.pendingHeightUpdates itemId height).foldl (fun m p => mset m p.1 p.2) st.heights ∧
    mget (updateItemHeight cfg st (some vp) itemId height).1.heights itemId = some height ∧
    (updateItemHeight cfg st (some vp) itemId height).2.onChangeFired = true := by
  have hlen : (mset st.pendingHeightUpdates itemId height).length = 51 := by
    rw [mset_of_not_mem _ _ _ hnew]
    simp [hfull]
  have hcommit :
      (mset st.pendingHeightUpdates itemId height).foldl (fun m p => mset m p.1 p.2) st.heights =
        mset (st.pendingHeightUpdates.foldl (fun m p => mset m p.1 p.2) st.heights)
          itemId height := by
    rw [mset_of_not_mem _ _ _ hnew, List.foldl_append]
    rfl
  set st1 : EngineState :=
    { st with
      heights := (mset st.pendingHeightUpdates itemId height).foldl
        (fun m p => mset m p.1 p.2) st.heights
      pendingHeightUpdates := []
      lastUpdateReasonHeightChange := true } with hst1
  have hrun : updateItemHeight cfg st (some vp) itemId height = update cfg st1 (some vp) := by
    rw [hst1]
    simp only [updateItemHeight, hnotall, hlen]
    norm_num
  obtain ⟨a, ha⟩ := getAnchor_isSome_of_ne_nil st1 (by simpa [hst1] using hlist)
  rw [hrun, update_of_anchor cfg st1 vp a ha]
  have hf := updateRenderedItems_fields cfg st1 a vp
  refine ⟨?_, ?_, ?_, ?_⟩
  · rw [hf.2.2.1]
  · rw [hf.2.1]
  · rw [hf.2.1]
    show mget ((mset st.pendingHeightUpdates itemId height).foldl
      (fun m p => mset m p.1 p.2) st.heights) itemId = some height
    rw [hcommit, mget_mset_self]
  · rw [hf.2.2.2.2.2.2.1]
    show (_ || true) = true
    exact Bool.or_true _

/-- C6 witness: a concrete 50-entry pending buffer, a rendered item `b` with
no height anywhere, and a 51st staged id `x`: the flush commits, clears and
fires `onChange`. -/
theorem C6_flush_threshold_witness :
    (updateItemHeight ⟨.const 10, 0, 0, 1⟩
      { list := [⟨"b", "", true, 0⟩]
        renderedItems := [⟨"b", 0, false, true, 10⟩]
        listHeightWithHeadRoom := 0
        heights := []
        pendingHeightUpdates := (List.range 50).map (fun i => (toString i, (7 : ℚ)))
        slice := ⟨0, 0⟩
        isIdle := true
        isInitialAnchoring := true
        lastUpdateReasonHeightChange := false }
      (some ⟨0, 100⟩) "x" 7).1.pendingHeightUpdates = [] ∧
    mget (updateItemHeight ⟨.const 10, 0, 0, 1⟩
      { list := [⟨"b", "", true, 0⟩]
        renderedItems := [⟨"b", 0, false, true, 10⟩]
        listHeightWithHeadRoom := 0
        heights := []
        pendingHeightUpdates := (List.range 50).map (fun i => (toString i, (7 : ℚ)))
        slice := ⟨0, 0⟩
        isIdle := true
        isInitialAnchoring := true
        lastUpdateReasonHeightChange := false }
      (some ⟨0, 100⟩) "x" 7).1.heights "x" = some 7 ∧
    (updateItemHeight ⟨.const 10, 0, 0, 1⟩
      { list := [⟨"b", "", true, 0⟩]
        renderedItems := [⟨"b", 0, false, true, 10⟩]
        listHeightWithHeadRoom := 0
        heights := []
        pendingHeightUpdates := (List.range 50).map (fun i => (toString i, (7 : ℚ)))
        slice := ⟨0, 0⟩
        isIdle := true
        isInitialAnchoring := true
        lastUpdateReasonHeightChange := false }
      (some ⟨0, 100⟩) "x" 7).2.onChangeFired = true := by
  have h := C6_flush_threshold ⟨.const 10, 0, 0, 1⟩
    { list := [⟨"b", "", true, 0⟩]
      renderedItems := [⟨"b", 0, false, true, 10⟩]
      listHeightWithHeadRoom := 0
      heights := []
      pendingHeightUpdates := (List.range 50).map (fun i => (toString i, (7 : ℚ)))
      slice := ⟨0, 0⟩
      isIdle := true
      isInitialAnchoring := true
      lastUpdateReasonHeightChange := false }
    ⟨0, 100⟩ "x" 7 (by decide) (by simp) (by decide) (by decide)
  exact ⟨h.1, h.2.2.1, h.2.2.2⟩

/-! ## Claim C2 (anchor fallback chain) -/

/-- C2: anchor resolution follows the fallback chain exactly: if some
currently rendered item (reconciled against the current list) has
`canBeAnchor` and a committed height, the anchor is the first such item in
rendered order with its current projected offset; otherwise, for a non-empty
list, the anchor is the first list item at offset 0; otherwise no anchor is
produced and the cycle aborts with no state change, no `onChange` and no
positioning notification. -/
theorem C2_anchor_fallback_chain (cfg : Config) (st : EngineState) (vp : Rectangle) :
    (∀ fri rest, getAnchorItemCandidates st = fri :: rest →
      getAnchor st = some ⟨fri.item.id, fri.offset⟩) ∧
    (getAnchorItemCandidates st = [] → ∀ item rest, st.list = item :: rest →
      getAnchor st = some ⟨item.id, 0⟩) ∧
    (st.list = [] →
      getAnchor st = none ∧ update cfg st (some vp) = (st, CycleOutput.silent)) := by
  refine ⟨?_, ?_, ?_⟩
  · intro fri rest h
    unfold getAnchor
    rw [h]
    rfl
  · intro hc item rest hl
    unfold getAnchor
    rw [hc, hl]
    rfl
  · intro hl
    have hc : getAnchorItemCandidates st = [] := by
      unfold getAnchorItemCandidates getFinalRenderedItems
      rw [hl]
      simp [itemMapGet]
    have hg : getAnchor st = none := by
      unfold getAnchor
      rw [hc, hl]
      rfl
    refine ⟨hg, ?_⟩
    unfold update
    rw [hg]

/-- C2 witness: a state with rendered item `a` (offset 5, anchorable, height
committed) resolves the anchor to `a` at offset 5; a state with an empty list
resolves no anchor and the cycle is silent. -/
theorem C2_anchor_fallback_chain_witness :
    getAnchor
      { list := [⟨"a", "", true, 0⟩]
        renderedItems := [⟨"a", 5, true, true, 10⟩]
        listHeightWithHeadRoom := 0
        heights := [("a", 10)]
        pendingHeightUpdates := []
        slice := ⟨0, 1⟩
        isIdle := true
        isInitialAnchoring := false
        lastUpdateReasonHeightChange := false } = some ⟨"a", 5⟩ ∧
    update ⟨.const 10, 0, 0, 1⟩
      { list := []
        renderedItems := []
        listHeightWithHeadRoom := 0
        heights := []
        pendingHeightUpdates := []
        slice := ⟨0, 0⟩
        isIdle := true
        isInitialAnchoring := true
        lastUpdateReasonHeightChange := false } (some ⟨0, 100⟩) =
      ({ list := []
         renderedItems := []
         listHeightWithHeadRoom := 0
         heights := []
         pendingHeightUpdates := []
         slice := ⟨0, 0⟩
         isIdle := true
         isInitialAnchoring := true
         lastUpdateReasonHeightChange := false }, CycleOutput.silent) := by
  constructor
  · exact (C2_anchor_fallback_chain ⟨.const 10, 0, 0, 1⟩
      { list := [⟨"a", "", true, 0⟩]
        renderedItems := [⟨"a", 5, true, true, 10⟩]
        listHeightWithHeadRoom := 0
        heights := [("a", 10)]
        pendingHeightUpdates := []
        slice := ⟨0, 1⟩
        isIdle := true
        isInitialAnchoring := false
        lastUpdateReasonHeightChange := false } ⟨0, 100⟩).1
      ⟨⟨"a", "", true, 0⟩, 5, true⟩ [] rfl
  · exact ((C2_anchor_fallback_chain ⟨.const 10, 0, 0, 1⟩
      { list := []
        renderedItems := []
        listHeightWithHeadRoom := 0
        heights := []
        pendingHeightUpdates := []
        slice := ⟨0, 0⟩
        isIdle := true
        isInitialAnchoring := true
        lastUpdateReasonHeightChange := false } ⟨0, 100⟩).2.2 rfl).2

/-! ## Claim C10 (positioning published iff heights ready) -/

theorem getIsHeightsReady_iff (heights : Heights) (l : List Anchor) :
    getIsHeightsReady heights l = true ↔ (l = [] ∨ ∀ x ∈ l, mhas heights x.itemId = true) := by
  simp [getIsHeightsReady, List.isEmpty_iff, List.all_eq_true, Bool.or_eq_true]

/-- C10: a cycle that resolves an anchor publishes the positioning snapshot
(consumed by `onPositionUpdate` and the proximity manager) exactly when the
heights-ready predicate holds for the *new* rendered set: it is empty or every
rendered item's id has a committed height.  Otherwise the cycle still updates
internal state (and may fire `onChange`) but publishes nothing. -/
theorem C10_positioning_iff_heights_ready (cfg : Config) (st : EngineState) (vp : Rectangle)
    (a : AnchorRef) (ha : getAnchor st = some a) :
    ((update cfg st (some vp)).2.positioning.isSome = true ↔
      ((update cfg st (some vp)).1.renderedItems = [] ∨
        ∀ x ∈ (update cfg st (some vp)).1.renderedItems, mhas st.heights x.itemId = true)) := by
  rw [update_of_anchor cfg st vp a ha]
  have hf := updateRenderedItems_fields cfg st a vp
  rw [hf.2.2.2.2.2.2.2, hf.2.2.2.2.2.1]
  unfold updatePositioning
  by_cases hr : getIsHeightsReady st.heights (getRenderCandidates cfg st a vp).newRenderedItems = true
  · rw [if_pos hr]
    simp only [Option.isSome_some, true_iff]
    exact (getIsHeightsReady_iff _ _).mp hr
  · rw [if_neg hr]
    simp only [Option.isSome_none, Bool.false_eq_true, false_iff]
    intro hcontra
    exact hr ((getIsHeightsReady_iff _ _).mpr hcontra)

/-- C10 witness: the theorem instantiated at a one-item list with no committed
heights (anchor falls back to the first item). -/
theorem C10_positioning_iff_heights_ready_witness :
    ((update ⟨.const 10, 0, 0, 1⟩
      { list := [⟨"a", "", true, 0⟩]
        renderedItems := []
        listHeightWithHeadRoom := 0
        heights := []
        pendingHeightUpdates := []
        slice := ⟨0, 0⟩
        isIdle := true
        isInitialAnchoring := true
        lastUpdateReasonHeightChange := false } (some ⟨0, 100⟩)).2.positioning.isSome = true ↔
      ((update ⟨.const 10, 0, 0, 1⟩
        { list := [⟨"a", "", true, 0⟩]
          renderedItems := []
          listHeightWithHeadRoom := 0
          heights := []
          pendingHeightUpdates := []
          slice := ⟨0, 0⟩
          isIdle := true
          isInitialAnchoring := true
          lastUpdateReasonHeightChange := false } (some ⟨0, 100⟩)).1.renderedItems = [] ∨
        ∀ x ∈ (update ⟨.const 10, 0, 0, 1⟩
          { list := [⟨"a", "", true, 0⟩]
            renderedItems := []
            listHeightWithHeadRoom := 0
            heights := []
            pendingHeightUpdates := []
            slice := ⟨0, 0⟩
            isIdle := true
            isInitialAnchoring := true
            lastUpdateReasonHeightChange := false } (some ⟨0, 100⟩)).1.renderedItems,
          mhas ([] : Heights) x.itemId = true)) :=
  C10_positioning_iff_heights_ready ⟨.const 10, 0, 0, 1⟩
    { list := [⟨"a", "", true, 0⟩]
      renderedItems := []
      listHeightWithHeadRoom := 0
      heights := []
      pendingHeightUpdates := []
      slice := ⟨0, 0⟩
      isIdle := true
      isInitialAnchoring := true
      lastUpdateReasonHeightChange := false } ⟨0, 100⟩ ⟨"a", 0⟩ rfl

/-! ## Claim C1 (slice invariant).

The invariant `0 ≤ start ≤ end ≤ list.length` survives a cycle whenever the
*incoming* persisted slice already satisfied it for the *current* list, but a
`setList` to a shorter list can leave the persisted slice's `end` beyond the
new length: the anti-thrash containment branch (and the expansion branch) of
`_adjustSlice` can return or extend the stale previous slice, and the
`end ≤ list.length` part is never re-clamped. -/

theorem exHeight_eval (id t : String) : getHeightForItemId exCfg [] id t = 10 := by
  norm_num [getHeightForItemId, mget, roundToDevicePixelRatio, exCfg, AssumedItemHeight.eval]

theorem exProj4_eval : getItemsWithPositions exCfg [] exList4 ⟨"0", 0⟩ = exProj4 := by
  norm_num [getItemsWithPositions, projectFrom, getDistanceFromTop, jsFindIndex,
    getHeight, exHeight_eval, exList4, exProj4, mhas]

theorem exRC0_eval :
    getRenderCandidates exCfg exState0 ⟨"0", 0⟩ ⟨0, 40⟩ = ⟨exProj4, exProj4, ⟨0, 4⟩, false⟩ := by
  have hbuf : targetBuffer exCfg exState0 ⟨0, 40⟩ = ⟨0, 40⟩ := by
    norm_num [targetBuffer, getBufferedViewport, exCfg, exState0]
  have hcand : getSliceForCandidates exProj4 ⟨0, 40⟩ = ⟨0, 4⟩ := by
    norm_num [getSliceForCandidates, candidateIndices, Anchor.getRectInViewport,
      Rectangle.doesIntersectWith, Rectangle.getBottom, List.range_succ, exProj4, List.getD]
  have hproj' : getItemsWithPositions exCfg exState0.heights exState0.list ⟨"0", 0⟩ = exProj4 :=
    exProj4_eval
  simp only [getRenderCandidates, hbuf, hproj', hcand]
  have hadj : adjustSlice exState0.slice ⟨0, 4⟩
      (exState0.isIdle && !exState0.isInitialAnchoring) = ⟨0, 4⟩ := by
    show adjustSlice ⟨0, 0⟩ ⟨0, 4⟩ false = ⟨0, 4⟩
    decide
  rw [hadj]
  have hjs : jsSlice exProj4 (0 : ℤ) (4 : ℤ) = exProj4 := by
    norm_num [jsSlice, jsSliceIdx, exProj4]
  rw [show (⟨0, 4⟩ : Slice).start = (0 : ℤ) from rfl,
    show (⟨0, 4⟩ : Slice).endIdx = (4 : ℤ) from rfl, hjs]
  rfl

theorem exUpdate0_eval : (update exCfg exState0 (some ⟨0, 40⟩)).1 = exState1 := by
  rw [update_of_anchor exCfg exState0 ⟨0, 40⟩ ⟨"0", 0⟩ rfl]
  simp only [updateRenderedItems, exRC0_eval]
  have hlh : getHeightBetweenItems exProj4.head? exProj4.getLast? = 40 := by
    norm_num [getHeightBetweenItems, exProj4, Anchor.getRectInViewport, Rectangle.getBottom]
  have hready : getIsHeightsReady exState0.heights exProj4 = false := by
    norm_num [getIsHeightsReady, exProj4, mhas, exState0]
  have hsc : (decide (exState0.slice = (⟨0, 4⟩ : Slice))) = false := by
    show decide ((⟨0, 0⟩ : Slice) = ⟨0, 4⟩) = false
    decide
  simp only [hlh, hready, hsc, exState1, exState0]
  rfl

theorem exProj2_eval :
    getItemsWithPositions exCfg exState1b.heights exState1b.list ⟨"0", 0⟩ = exProj2 := by
  norm_num [getItemsWithPositions, projectFrom, getDistanceFromTop, jsFindIndex,
    getHeight, exHeight_eval, exList2, exProj2, mhas, exState1b]

theorem exRC1_eval :
    getRenderCandidates exCfg exState1b ⟨"0", 0⟩ ⟨0, 40⟩ = ⟨exProj2, exProj2, ⟨0, 4⟩, false⟩ := by
  have hbuf : targetBuffer exCfg exState1b ⟨0, 40⟩ = ⟨0, 40⟩ := by
    norm_num [targetBuffer, getBufferedViewport, exCfg, exState1b]
  have hcand : getSliceForCandidates exProj2 ⟨0, 40⟩ = ⟨0, 2⟩ := by
    norm_num [getSliceForCandidates, candidateIndices, Anchor.getRectInViewport,
      Rectangle.doesIntersectWith, Rectangle.getBottom, List.range_succ, exProj2, List.getD]
  simp only [getRenderCandidates, hbuf, exProj2_eval, hcand]
  have hadj : adjustSlice exState1b.slice ⟨0, 2⟩
      (exState1b.isIdle && !exState1b.isInitialAnchoring) = ⟨0, 4⟩ := by
    show adjustSlice ⟨0, 4⟩ ⟨0, 2⟩ false = ⟨0, 4⟩
    decide
  rw [hadj]
  have hjs : jsSlice exProj2 (0 : ℤ) (4 : ℤ) = exProj2 := by
    norm_num [jsSlice, jsSliceIdx, exProj2]
  rw [show (⟨0, 4⟩ : Slice).start = (0 : ℤ) from rfl,
    show (⟨0, 4⟩ : Slice).endIdx = (4 : ℤ) from rfl, hjs]
  rfl

/-- C1 counterexample: a 4-item list renders slice `[0,4)`; a `setList` to the
2-item prefix followed by one full cycle (minimum buffer; still in the
initial-anchoring phase) keeps the persisted slice `[0,4)` via the anti-thrash
containment branch, so `slice.end = 4 > 2 = list.length` — the claimed
invariant `slice.end ≤ list.length` fails after that cycle. -/
theorem C1_counterexample :
    (update exCfg (setList (update exCfg exState0 (some ⟨0, 40⟩)).1 exList2)
      (some ⟨0, 40⟩)).1.slice = ⟨0, 4⟩ ∧
    (update exCfg (setList (update exCfg exState0 (some ⟨0, 40⟩)).1 exList2)
      (some ⟨0, 40⟩)).1.list.length = 2 ∧
    ¬ ((update exCfg (setList (update exCfg exState0 (some ⟨0, 40⟩)).1 exList2)
      (some ⟨0, 40⟩)).1.slice.endIdx ≤
        ((update exCfg (setList (update exCfg exState0 (some ⟨0, 40⟩)).1 exList2)
          (some ⟨0, 40⟩)).1.list.length : ℤ)) := by
  rw [exUpdate0_eval, show setList exState1 exList2 = exState1b from rfl,
    update_of_anchor exCfg exState1b ⟨0, 40⟩ ⟨"0", 0⟩ rfl]
  have hs := updateRenderedItems_slice exCfg exState1b ⟨"0", 0⟩ ⟨0, 40⟩
  rw [exRC1_eval] at hs
  have hl := (updateRenderedItems_fields exCfg exState1b ⟨"0", 0⟩ ⟨0, 40⟩).1
  rw [hs, hl]
  refine ⟨rfl, rfl, by decide⟩

theorem projectFrom_length (cfg : Config) (heights : Heights) (o : ℚ) (l : List ListItem) :
    (projectFrom cfg heights o l).length = l.length := by
  induction l generalizing o with
  | nil => rfl
  | cons x t ih => simp [projectFrom, ih]

theorem getItemsWithPositions_length (cfg : Config) (heights : Heights) (list : List ListItem)
    (anchor : AnchorRef) :
    (getItemsWithPositions cfg heights list anchor).length = list.length := by
  unfold getItemsWithPositions
  by_cases h : list.isEmpty
  · rw [if_pos h]
    rw [List.isEmpty_iff] at h
    simp [h]
  · rw [if_neg h]
    exact projectFrom_length cfg heights _ list

theorem candidateIndices_sorted (allItems : List Anchor) (buf : Rectangle) :
    (candidateIndices allItems buf).Pairwise (· < ·) :=
  (List.pairwise_lt_range allItems.length).filter _

theorem candidateIndices_mem_lt (allItems : List Anchor) (buf : Rectangle) (i : ℕ)
    (h : i ∈ candidateIndices allItems buf) : i < allItems.length := by
  unfold candidateIndices at h
  exact List.mem_range.mp (List.mem_of_mem_filter h)

theorem getSliceForCandidates_bounds (allItems : List Anchor) (buf : Rectangle) :
    0 ≤ (getSliceForCandidates allItems buf).start ∧
    (getSliceForCandidates allItems buf).start ≤ (getSliceForCandidates allItems buf).endIdx ∧
    (getSliceForCandidates allItems buf).endIdx ≤ (allItems.length : ℤ) := by
  unfold getSliceForCandidates
  cases h : candidateIndices allItems buf with
  | nil => simp
  | cons i is =>
    have hne : i :: is ≠ [] := List.cons_ne_nil i is
    have hsorted : (i :: is).Pairwise (· < ·) := by
      rw [← h]
      exact candidateIndices_sorted allItems buf
    have hlastD : (i :: is).getLastD 0 = (i :: is).getLast hne := by
      rw [List.getLastD_eq_getLast?, List.getLast?_eq_getLast _ hne]
      rfl
    have hlast_mem : (i :: is).getLast hne ∈ i :: is := List.getLast_mem hne
    have hlast_lt : (i :: is).getLast hne < allItems.length := by
      apply candidateIndices_mem_lt allItems buf
      rw [h]
      exact hlast_mem
    have hhead_le : i ≤ (i :: is).getLast hne := by
      rcases List.mem_cons.mp hlast_mem with heq | hmem
      · exact le_of_eq heq.symm
      · exact le_of_lt ((List.pairwise_cons.mp hsorted).1 _ hmem)
    simp only [List.headD_cons, hlastD]
    refine ⟨by positivity, by omega, by omega⟩

theorem adjustSlice_bounds (p c : Slice) (u : Bool) (n : ℤ)
    (hp0 : 0 ≤ p.start) (hp1 : p.start ≤ p.endIdx) (hp2 : p.endIdx ≤ n)
    (hc0 : 0 ≤ c.start) (hc1 : c.start ≤ c.endIdx) (hc2 : c.endIdx ≤ n) :
    0 ≤ (adjustSlice p c u).start ∧ (adjustSlice p c u).start ≤ (adjustSlice p c u).endIdx ∧
      (adjustSlice p c u).endIdx ≤ n := by
  unfold adjustSlice
  split_ifs
  · exact ⟨hc0, hc1, hc2⟩
  · exact ⟨hp0, hp1, hp2⟩
  · exact ⟨hc0, hc1, hc2⟩
  · refine ⟨?_, ?_, ?_⟩ <;> simp only [] <;> omega

/-- C1 amended: for every configuration, state and (possibly missing) viewport,
one full update cycle preserves `0 ≤ slice.start ≤ slice.end ≤ list.length`
*provided the incoming persisted slice already satisfies it for the current
list* (in particular for any list of length ≥ 1).  After a `setList` to a
shorter list this precondition can fail and the cycle can keep
`slice.end > list.length` (see the counterexample); only a preferred-buffer
cycle is guaranteed to re-adopt an in-bounds candidate slice. -/
theorem C1_slice_invariant (cfg : Config) (st : EngineState) (vpOpt : Option Rectangle)
    (_hlen : 1 ≤ st.list.length)
    (h0 : 0 ≤ st.slice.start) (h1 : st.slice.start ≤ st.slice.endIdx)
    (h2 : st.slice.endIdx ≤ (st.list.length : ℤ)) :
    0 ≤ (update cfg st vpOpt).1.slice.start ∧
    (update cfg st vpOpt).1.slice.start ≤ (update cfg st vpOpt).1.slice.endIdx ∧
    (update cfg st vpOpt).1.slice.endIdx ≤ ((update cfg st vpOpt).1.list.length : ℤ) := by
  cases vpOpt with
  | none => exact ⟨h0, h1, h2⟩
  | some vp =>
    cases ha : getAnchor st with
    | none =>
      unfold update
      rw [ha]
      exact ⟨h0, h1, h2⟩
    | some a =>
      rw [update_of_anchor cfg st vp a ha]
      rw [updateRenderedItems_slice, (updateRenderedItems_fields cfg st a vp).1]
      show 0 ≤ (adjustSlice st.slice _ _).start ∧ _ ∧ _
      have hcand := getSliceForCandidates_bounds
        (getItemsWithPositions cfg st.heights st.list a) (targetBuffer cfg st vp)
      rw [getItemsWithPositions_length] at hcand
      exact adjustSlice_bounds st.slice _ _ _ h0 h1 h2 hcand.1 hcand.2.1 hcand.2.2

/-- C1 witness: the amended invariant applied to the concrete 4-item initial
state (slice `[0,0)` into a list of length 4). -/
theorem C1_slice_invariant_witness :
    0 ≤ (update exCfg exState0 (some ⟨0, 40⟩)).1.slice.start ∧
    (update exCfg exState0 (some ⟨0, 40⟩)).1.slice.start ≤
      (update exCfg exState0 (some ⟨0, 40⟩)).1.slice.endIdx ∧
    (update exCfg exState0 (some ⟨0, 40⟩)).1.slice.endIdx ≤
      ((update exCfg exState0 (some ⟨0, 40⟩)).1.list.length : ℤ) :=
  C1_slice_invariant exCfg exState0 (some ⟨0, 40⟩) (by decide) (by decide) (by decide) (by decide)

/-! ## Auxiliary lemmas: `_adjustSlice` branch equations and idempotence -/

theorem adjustSlice_min_contained (p c : Slice)
    (h : c.start ≥ p.start ∧ c.endIdx ≤ p.endIdx ∧ p.endIdx - p.start ≤ 50) :
    adjustSlice p c false = p := by
  unfold adjustSlice
  simp only [Bool.false_eq_true, if_false]
  rw [if_pos h]

theorem adjustSlice_min_disjoint (p c : Slice)
    (hnc : ¬ (c.start ≥ p.start ∧ c.endIdx ≤ p.endIdx ∧ p.endIdx - p.start ≤ 50))
    (hd : c.start ≥ p.endIdx ∨ c.endIdx ≤ p.start) :
    adjustSlice p c false = c := by
  unfold adjustSlice
  simp only [Bool.false_eq_true, if_false]
  rw [if_neg hnc, if_pos hd]

theorem adjustSlice_min_expand (p c : Slice)
    (hnc : ¬ (c.start ≥ p.start ∧ c.endIdx ≤ p.endIdx ∧ p.endIdx - p.start ≤ 50))
    (hnd : ¬ (c.start ≥ p.endIdx ∨ c.endIdx ≤ p.start)) :
    adjustSlice p c false =
      ⟨min (p.start + max (max (p.start - c.start) (c.endIdx - p.endIdx)) 0) c.start,
        max (p.endIdx - max (max (p.start - c.start) (c.endIdx - p.endIdx)) 0) c.endIdx⟩ := by
  unfold adjustSlice
  simp only [Bool.false_eq_true, if_false]
  rw [if_neg hnc, if_neg hnd]

theorem adjustSlice_pref (p c : Slice) : adjustSlice p c true = c := rfl

/-- Applying `_adjustSlice` again to its own result (same candidate, same
buffer selection) changes nothing, for candidate slices with
`start ≤ end` — the shape `_getSliceForCandidates` always produces. -/
theorem adjustSlice_idem (p c : Slice) (u : Bool) (hc : c.start ≤ c.endIdx) :
    adjustSlice (adjustSlice p c u) c u = adjustSlice p c u := by
  cases u with
  | true => rfl
  | false =>
    by_cases h1 : c.start ≥ p.start ∧ c.endIdx ≤ p.endIdx ∧ p.endIdx - p.start ≤ 50
    · rw [adjustSlice_min_contained p c h1, adjustSlice_min_contained p c h1]
    · by_cases h2 : c.start ≥ p.endIdx ∨ c.endIdx ≤ p.start
      · rw [adjustSlice_min_disjoint p c h1 h2]
        by_cases h3 : c.endIdx - c.start ≤ 50
        · exact adjustSlice_min_contained c c ⟨le_refl _, le_refl _, h3⟩
        · by_cases h4 : c.start ≥ c.endIdx ∨ c.endIdx ≤ c.start
          · exact adjustSlice_min_disjoint c c (by omega) h4
          · rw [adjustSlice_min_expand c c (by omega) h4]
            rcases c with ⟨ns, ne⟩
            simp only [Slice.mk.injEq]
            omega
      · rw [adjustSlice_min_expand p c h1 h2]
        rcases p with ⟨ps, pe⟩
        rcases c with ⟨ns, ne⟩
        simp only at h1 h2 hc
        by_cases h3 : ns ≥ (min (ps + max (max (ps - ns) (ne - pe)) 0) ns) ∧
            ne ≤ (max (pe - max (max (ps - ns) (ne - pe)) 0) ne) ∧
            (max (pe - max (max (ps - ns) (ne - pe)) 0) ne) -
              (min (ps + max (max (ps - ns) (ne - pe)) 0) ns) ≤ 50
        · exact adjustSlice_min_contained _ _ h3
        · rw [adjustSlice_min_expand _ _ h3 (by simp only []; omega)]
          simp only [Slice.mk.injEq]
          constructor
          · omega
          · omega

/-! ## Auxiliary lemmas: projection -/

theorem prefixHeight_zero (cfg : Config) (heights : Heights) (l : List ListItem) :
    prefixHeight cfg heights l 0 = 0 := rfl

theorem prefixHeight_succ_cons (cfg : Config) (heights : Heights) (x : ListItem)
    (t : List ListItem) (j : ℕ) :
    prefixHeight cfg heights (x :: t) (j + 1) =
      getHeight cfg heights x + prefixHeight cfg heights t j := by
  simp [prefixHeight, List.take_succ_cons]

theorem projectFrom_get (cfg : Config) (heights : Heights) (o : ℚ) (l : List ListItem)
    (j : ℕ) (hj : j < l.length)
    (hj' : j < (projectFrom cfg heights o l).length) :
    (projectFrom cfg heights o l).get ⟨j, hj'⟩ =
      ⟨(l.get ⟨j, hj⟩).id, o + prefixHeight cfg heights l j,
        mhas heights (l.get ⟨j, hj⟩).id, (l.get ⟨j, hj⟩).canBeAnchor,
        getHeight cfg heights (l.get ⟨j, hj⟩)⟩ := by
  induction l generalizing o j with
  | nil => exact absurd hj (Nat.not_lt_zero j)
  | cons x t ih =>
    cases j with
    | zero => simp [projectFrom, prefixHeight_zero]
    | succ j =>
      have hjt : j < t.length := Nat.lt_of_succ_lt_succ hj
      have hjt' : j < (projectFrom cfg heights (o + getHeight cfg heights x) t).length := by
        rw [projectFrom_length]
        exact hjt
      show (projectFrom cfg heights (o + getHeight cfg heights x) t).get ⟨j, hjt'⟩ = _
      rw [ih (o + getHeight cfg heights x) j hjt hjt']
      simp [prefixHeight_succ_cons, add_assoc]

theorem jsFindIndex_get_of_nodup (l : List ListItem) (hnd : (l.map ListItem.id).Nodup)
    (j : ℕ) (hj : j < l.length) :
    jsFindIndex (fun it => it.id == (l.get ⟨j, hj⟩).id) l = some j := by
  induction l generalizing j with
  | nil => exact absurd hj (Nat.not_lt_zero j)
  | cons x t ih =>
    cases j with
    | zero => simp [jsFindIndex]
    | succ j =>
      have hjt : j < t.length := Nat.lt_of_succ_lt_succ hj
      have hx : x.id ∉ t.map ListItem.id := by
        have := hnd
        rw [List.map_cons, List.nodup_cons] at this
        exact this.1
      have hxne : (x.id == (t.get ⟨j, hjt⟩).id) = false := by
        rw [beq_eq_false_iff_ne]
        intro hcontra
        exact hx (hcontra ▸ List.mem_map_of_mem ListItem.id (List.get_mem t j hjt))
      have hndt : (t.map ListItem.id).Nodup := by
        rw [List.map_cons, List.nodup_cons] at hnd
        exact hnd.2
      show jsFindIndex (fun it => it.id == ((x :: t).get ⟨j + 1, hj⟩).id) (x :: t) = some (j + 1)
      have hgt : ((x :: t).get ⟨j + 1, hj⟩) = t.get ⟨j, hjt⟩ := rfl
      rw [hgt]
      unfold jsFindIndex
      rw [if_neg (by simpa using hxne), ih hndt j hjt]
      rfl

theorem getDistanceFromTop_get (cfg : Config) (heights : Heights) (l : List ListItem)
    (hnd : (l.map ListItem.id).Nodup) (j : ℕ) (hj : j < l.length) :
    getDistanceFromTop cfg heights l (l.get ⟨j, hj⟩).id = prefixHeight cfg heights l j := by
  unfold getDistanceFromTop
  rw [jsFindIndex_get_of_nodup l hnd j hj]
  by_cases h0 : j = 0
  · subst h0
    rw [prefixHeight_zero]
    rfl
  · simp [h0]

theorem getItemsWithPositions_eq_projectFrom (cfg : Config) (heights : Heights)
    (l : List ListItem) (anchor : AnchorRef) (hne : l ≠ []) :
    getItemsWithPositions cfg heights l anchor =
      projectFrom cfg heights
        (anchor.offset - getDistanceFromTop cfg heights l anchor.itemId) l := by
  unfold getItemsWithPositions
  rw [if_neg (by simpa [List.isEmpty_iff] using hne)]

theorem getItemsWithPositions_anchored (cfg : Config) (heights : Heights) (l : List ListItem)
    (hnd : (l.map ListItem.id).Nodup) (j : ℕ) (hj : j < l.length) (base : ℚ) :
    getItemsWithPositions cfg heights l
      ⟨(l.get ⟨j, hj⟩).id, base + prefixHeight cfg heights l j⟩ =
      projectFrom cfg heights base l := by
  have hne : l ≠ [] := by
    intro hcontra
    rw [hcontra] at hj
    exact absurd hj (Nat.not_lt_zero j)
  rw [getItemsWithPositions_eq_projectFrom cfg heights l _ hne]
  show projectFrom cfg heights
    (base + prefixHeight cfg heights l j - getDistanceFromTop cfg heights l (l.get ⟨j, hj⟩).id)
    l = _
  rw [getDistanceFromTop_get cfg heights l hnd j hj, add_sub_cancel_right]

theorem jsSlice_subset {α : Type} (l : List α) (s e : ℤ) (x : α) (hx : x ∈ jsSlice l s e) :
    x ∈ l := by
  unfold jsSlice at hx
  exact List.mem_of_mem_drop (List.mem_of_mem_take hx)

/-! ## Auxiliary lemmas: anchor candidates -/

theorem itemMapGet_id (l : List ListItem) (id : String) (it : ListItem)
    (h : itemMapGet l id = some it) : it.id = id := by
  unfold itemMapGet at h
  have := List.find?_some h
  simpa using this

theorem getAnchorItemCandidates_head (st : EngineState) (fri : FinalRenderedItem)
    (rest : List FinalRenderedItem) (h : getAnchorItemCandidates st = fri :: rest) :
    ∃ a ∈ st.renderedItems, itemMapGet st.list a.itemId = some fri.item ∧
      fri.offset = a.offset := by
  have hmem : fri ∈ getAnchorItemCandidates st := by
    rw [h]
    exact List.mem_cons_self fri rest
  unfold getAnchorItemCandidates at hmem
  have hmem2 : fri ∈ getFinalRenderedItems st := (List.mem_filter.mp hmem).1
  unfold getFinalRenderedItems at hmem2
  obtain ⟨a, ha, hfa⟩ := List.mem_filterMap.mp hmem2
  cases hi : itemMapGet st.list a.itemId with
  | none =>
    rw [hi] at hfa
    exact absurd hfa (by simp)
  | some item =>
    rw [hi] at hfa
    simp only [Option.map_some', Option.some_inj] at hfa
    refine ⟨a, ha, ?_, ?_⟩
    · rw [hi, ← hfa]
    · rw [← hfa]

/-! ## Claim C9 (idempotence of the update cycle).

Re-running the cycle with no external change is *not* always a no-op: when the
first run completes the initial-anchoring phase (all rendered heights
committed) while the engine is idle, the second run switches from the minimum
to the preferred buffer and adopts a wider candidate slice.  Idempotence does
hold when the buffer selection is unchanged and the first run's rendered set
retains an anchor candidate. -/

theorem idemHeight0_eval : getHeightForItemId idemCfg idemHeights "0" "" = 10 := by
  have hm : mget idemHeights "0" = some 10 := rfl
  norm_num [getHeightForItemId, hm, roundToDevicePixelRatio, idemCfg]

theorem idemHeight1_eval : getHeightForItemId idemCfg idemHeights "1" "" = 10 := by
  have hm : mget idemHeights "1" = some 10 := rfl
  norm_num [getHeightForItemId, hm, roundToDevicePixelRatio, idemCfg]

theorem idemProj_eval :
    getItemsWithPositions idemCfg idemHeights exList2 ⟨"0", 0⟩ = idemProj := by
  have hm0 : mhas idemHeights "0" = true := rfl
  have hm1 : mhas idemHeights "1" = true := rfl
  norm_num [getItemsWithPositions, projectFrom, getDistanceFromTop, jsFindIndex,
    getHeight, idemHeight0_eval, idemHeight1_eval, exList2, idemProj, hm0, hm1]

theorem idemRC0_eval :
    getRenderCandidates idemCfg idemState0 ⟨"0", 0⟩ ⟨0, 10⟩ =
      ⟨idemProj, [⟨"0", 0, true, true, 10⟩], ⟨0, 1⟩, false⟩ := by
  have hbuf : targetBuffer idemCfg idemState0 ⟨0, 10⟩ = ⟨0, 10⟩ := by
    norm_num [targetBuffer, getBufferedViewport, idemCfg, idemState0]
  have hcand : getSliceForCandidates idemProj ⟨0, 10⟩ = ⟨0, 1⟩ := by
    norm_num [getSliceForCandidates, candidateIndices, Anchor.getRectInViewport,
      Rectangle.doesIntersectWith, Rectangle.getBottom, List.range_succ, idemProj, List.getD]
  have hproj' : getItemsWithPositions idemCfg idemState0.heights idemState0.list ⟨"0", 0⟩ =
      idemProj := idemProj_eval
  simp only [getRenderCandidates, hbuf, hproj', hcand]
  have hadj : adjustSlice idemState0.slice ⟨0, 1⟩
      (idemState0.isIdle && !idemState0.isInitialAnchoring) = ⟨0, 1⟩ := by
    show adjustSlice ⟨0, 0⟩ ⟨0, 1⟩ false = ⟨0, 1⟩
    decide
  rw [hadj]
  have hjs : jsSlice idemProj (0 : ℤ) (1 : ℤ) = [⟨"0", 0, true, true, 10⟩] := by
    norm_num [jsSlice, jsSliceIdx, idemProj]
  rw [show (⟨0, 1⟩ : Slice).start = (0 : ℤ) from rfl,
    show (⟨0, 1⟩ : Slice).endIdx = (1 : ℤ) from rfl, hjs]
  rfl

theorem idemUpdate0_eval : (update idemCfg idemState0 (some ⟨0, 10⟩)).1 = idemState1 := by
  rw [update_of_anchor idemCfg idemState0 ⟨0, 10⟩ ⟨"0", 0⟩ rfl]
  simp only [updateRenderedItems, idemRC0_eval]
  have hlh : getHeightBetweenItems idemProj.head? idemProj.getLast? = 20 := by
    norm_num [getHeightBetweenItems, idemProj, Anchor.getRectInViewport, Rectangle.getBottom]
  have hready : getIsHeightsReady idemState0.heights [⟨"0", 0, true, true, 10⟩] = true := by
    norm_num [getIsHeightsReady, mhas, idemState0, idemHeights]
  have hsc : (decide (idemState0.slice = (⟨0, 1⟩ : Slice))) = false := by
    show decide ((⟨0, 0⟩ : Slice) = ⟨0, 1⟩) = false
    decide
  simp only [hlh, hready, hsc, idemState1, idemState0]
  rfl

theorem idemRC1_eval :
    getRenderCandidates idemCfg idemState1 ⟨"0", 0⟩ ⟨0, 10⟩ =
      ⟨idemProj, idemProj, ⟨0, 2⟩, true⟩ := by
  have hbuf : targetBuffer idemCfg idemState1 ⟨0, 10⟩ = ⟨-10, 30⟩ := by
    norm_num [targetBuffer, getBufferedViewport, idemCfg, idemState1]
  have hcand : getSliceForCandidates idemProj ⟨-10, 30⟩ = ⟨0, 2⟩ := by
    norm_num [getSliceForCandidates, candidateIndices, Anchor.getRectInViewport,
      Rectangle.doesIntersectWith, Rectangle.getBottom, List.range_succ, idemProj, List.getD]
  have hproj' : getItemsWithPositions idemCfg idemState1.heights idemState1.list ⟨"0", 0⟩ =
      idemProj := idemProj_eval
  simp only [getRenderCandidates, hbuf, hproj', hcand]
  have hadj : adjustSlice idemState1.slice ⟨0, 2⟩
      (idemState1.isIdle && !idemState1.isInitialAnchoring) = ⟨0, 2⟩ := rfl
  rw [hadj]
  have hjs : jsSlice idemProj (0 : ℤ) (2 : ℤ) = idemProj := by
    norm_num [jsSlice, jsSliceIdx, idemProj]
  rw [show (⟨0, 2⟩ : Slice).start = (0 : ℤ) from rfl,
    show (⟨0, 2⟩ : Slice).endIdx = (2 : ℤ) from rfl, hjs]
  rfl

/-- C9 counterexample: two items of height 10, both heights already committed,
viewport `[0,10)`, minimum ratio 0, preferred ratio 1, engine idle and in the
initial-anchoring phase.  The first cycle (minimum buffer) renders slice
`[0,1)` and — heights being ready — ends the initial-anchoring phase; the
second cycle, with *no external change*, switches to the preferred buffer and
produces slice `[0,2)` ≠ `[0,1)`. -/
theorem C9_counterexample :
    (update idemCfg idemState0 (some ⟨0, 10⟩)).1.slice = ⟨0, 1⟩ ∧
    (update idemCfg (update idemCfg idemState0 (some ⟨0, 10⟩)).1 (some ⟨0, 10⟩)).1.slice =
      ⟨0, 2⟩ ∧
    (update idemCfg (update idemCfg idemState0 (some ⟨0, 10⟩)).1 (some ⟨0, 10⟩)).1.slice ≠
      (update idemCfg idemState0 (some ⟨0, 10⟩)).1.slice := by
  have h2slice : (update idemCfg idemState1 (some ⟨0, 10⟩)).1.slice = ⟨0, 2⟩ := by
    rw [update_of_anchor idemCfg idemState1 ⟨0, 10⟩ ⟨"0", 0⟩ rfl,
      updateRenderedItems_slice, idemRC1_eval]
  rw [idemUpdate0_eval]
  exact ⟨rfl, h2slice, by rw [h2slice]; decide⟩

/-- C9 amended: running the update cycle twice with no external change (same
viewport, no scroll, no measurements, no list change) produces an identical
slice and identical rendered items — offsets included — on the second run,
*provided* (a) the list's ids are duplicate-free, (b) the first run leaves the
`idle ∧ ¬initial-anchoring` buffer selection unchanged, and (c) the first
run's rendered set still contains an anchor candidate (an item of the current
list with `canBeAnchor` and a committed height).  The unqualified claim fails:
completing the initial-anchoring phase flips the buffer selection (see the
counterexample). -/
theorem C9_idempotent_cycle (cfg : Config) (st : EngineState) (vp : Rectangle)
    (hnd : (st.list.map ListItem.id).Nodup)
    (hbuf : ((update cfg st (some vp)).1.isIdle &&
        !(update cfg st (some vp)).1.isInitialAnchoring) =
      (st.isIdle && !st.isInitialAnchoring))
    (hcand : getAnchorItemCandidates (update cfg st (some vp)).1 ≠ []) :
    (update cfg (update cfg st (some vp)).1 (some vp)).1.renderedItems =
      (update cfg st (some vp)).1.renderedItems ∧
    (update cfg (update cfg st (some vp)).1 (some vp)).1.slice =
      (update cfg st (some vp)).1.slice := by
  cases ha : getAnchor st with
  | none =>
    have hs1 : (update cfg st (some vp)).1 = st := by
      unfold update
      rw [ha]
    rw [hs1, hs1]
    exact ⟨rfl, rfl⟩
  | some a =>
    have hs1 : (update cfg st (some vp)).1 = (updateRenderedItems cfg st a vp).1 := by
      rw [update_of_anchor cfg st vp a ha]
    have hfld := updateRenderedItems_fields cfg st a vp
    have hs1list : (update cfg st (some vp)).1.list = st.list := by
      rw [hs1]
      exact hfld.1
    have hs1h : (update cfg st (some vp)).1.heights = st.heights := by
      rw [hs1]
      exact hfld.2.1
    have hs1rend : (update cfg st (some vp)).1.renderedItems =
        (getRenderCandidates cfg st a vp).newRenderedItems := by
      rw [hs1]
      exact hfld.2.2.2.2.2.1
    have hs1slice : (update cfg st (some vp)).1.slice =
        (getRenderCandidates cfg st a vp).slice := by
      rw [hs1]
      exact updateRenderedItems_slice cfg st a vp
    by_cases hle : st.list = []
    · exfalso
      apply hcand
      have hrend0 : (update cfg st (some vp)).1.renderedItems = [] := by
        rw [hs1rend]
        show jsSlice (getItemsWithPositions cfg st.heights st.list a) _ _ = []
        rw [hle]
        simp [getItemsWithPositions, jsSlice]
      unfold getAnchorItemCandidates getFinalRenderedItems
      rw [hrend0]
      rfl
    · obtain ⟨fri, rest, hfr⟩ : ∃ fri rest,
          getAnchorItemCandidates (update cfg st (some vp)).1 = fri :: rest := by
        cases hx : getAnchorItemCandidates (update cfg st (some vp)).1 with
        | nil => exact absurd hx hcand
        | cons f r => exact ⟨f, r, rfl⟩
      have hanch2 : getAnchor (update cfg st (some vp)).1 = some ⟨fri.item.id, fri.offset⟩ := by
        unfold getAnchor
        rw [hfr]
        rfl
      obtain ⟨aEl, haEl, hmap, hoff⟩ :=
        getAnchorItemCandidates_head (update cfg st (some vp)).1 fri rest hfr
      have hfid : fri.item.id = aEl.itemId := by
        apply itemMapGet_id (update cfg st (some vp)).1.list aEl.itemId fri.item hmap
      have hproj1 : getItemsWithPositions cfg st.heights st.list a =
          projectFrom cfg st.heights
            (a.offset - getDistanceFromTop cfg st.heights st.list a.itemId) st.list :=
        getItemsWithPositions_eq_projectFrom cfg st.heights st.list a hle
      have hrc : getRenderCandidates cfg st a vp =
          ⟨projectFrom cfg st.heights
              (a.offset - getDistanceFromTop cfg st.heights st.list a.itemId) st.list,
            jsSlice
              (projectFrom cfg st.heights
                (a.offset - getDistanceFromTop cfg st.heights st.list a.itemId) st.list)
              (adjustSlice st.slice
                (getSliceForCandidates
                  (projectFrom cfg st.heights
                    (a.offset - getDistanceFromTop cfg st.heights st.list a.itemId) st.list)
                  (targetBuffer cfg st vp))
                (st.isIdle && !st.isInitialAnchoring)).start
              (adjustSlice st.slice
                (getSliceForCandidates
                  (projectFrom cfg st.heights
                    (a.offset - getDistanceFromTop cfg st.heights st.list a.itemId) st.list)
                  (targetBuffer cfg st vp))
                (st.isIdle && !st.isInitialAnchoring)).endIdx,
            adjustSlice st.slice
              (getSliceForCandidates
                (projectFrom cfg st.heights
                  (a.offset - getDistanceFromTop cfg st.heights st.list a.itemId) st.list)
                (targetBuffer cfg st vp))
              (st.isIdle && !st.isInitialAnchoring),
            st.isIdle && !st.isInitialAnchoring⟩ := by
        unfold getRenderCandidates
        rw [hproj1]
      rw [hrc] at hs1rend hs1slice
      dsimp only at hs1rend hs1slice
      rw [hs1rend] at haEl
      have haElP : aEl ∈ projectFrom cfg st.heights
          (a.offset - getDistanceFromTop cfg st.heights st.list a.itemId) st.list :=
        jsSlice_subset _ _ _ aEl haEl
      obtain ⟨⟨j, hjP⟩, hget⟩ := List.mem_iff_get.mp haElP
      have hj : j < st.list.length := by
        have := hjP
        rw [projectFrom_length] at this
        exact this
      have hgetP := projectFrom_get cfg st.heights
        (a.offset - getDistanceFromTop cfg st.heights st.list a.itemId) st.list j hj hjP
      have hid : aEl.itemId = (st.list.get ⟨j, hj⟩).id := by
        rw [← hget, hgetP]
      have hof : aEl.offset =
          (a.offset - getDistanceFromTop cfg st.heights st.list a.itemId) +
            prefixHeight cfg st.heights st.list j := by
        rw [← hget, hgetP]
      have hproj2 : getItemsWithPositions cfg (update cfg st (some vp)).1.heights
          (update cfg st (some vp)).1.list ⟨fri.item.id, fri.offset⟩ =
          projectFrom cfg st.heights
            (a.offset - getDistanceFromTop cfg st.heights st.list a.itemId) st.list := by
        rw [hs1h, hs1list, hfid, hoff, hid, hof]
        exact getItemsWithPositions_anchored cfg st.heights st.list hnd j hj _
      have htb2 : targetBuffer cfg (update cfg st (some vp)).1 vp = targetBuffer cfg st vp := by
        unfold targetBuffer
        rw [hbuf]
      have hcle : (getSliceForCandidates
          (projectFrom cfg st.heights
            (a.offset - getDistanceFromTop cfg st.heights st.list a.itemId) st.list)
          (targetBuffer cfg st vp)).start ≤
          (getSliceForCandidates
            (projectFrom cfg st.heights
              (a.offset - getDistanceFromTop cfg st.heights st.list a.itemId) st.list)
            (targetBuffer cfg st vp)).endIdx :=
        (getSliceForCandidates_bounds _ _).2.1
      have hrc2 : getRenderCandidates cfg (update cfg st (some vp)).1
          ⟨fri.item.id, fri.offset⟩ vp = getRenderCandidates cfg st a vp := by
        unfold getRenderCandidates
        simp only []
        rw [hproj1, hproj2, htb2, hbuf, hs1slice]
        rw [adjustSlice_idem st.slice _ _ hcle]
      have hupd2 : update cfg (update cfg st (some vp)).1 (some vp) =
          updateRenderedItems cfg (update cfg st (some vp)).1 ⟨fri.item.id, fri.offset⟩ vp :=
        update_of_anchor cfg (update cfg st (some vp)).1 vp _ hanch2
      constructor
      · rw [hupd2,
          (updateRenderedItems_fields cfg (update cfg st (some vp)).1 _ vp).2.2.2.2.2.1, hrc2]
        rw [hs1rend, hrc]
      · rw [hupd2, updateRenderedItems_slice, hrc2]
        rw [hs1slice, hrc]

theorem idemRCW_eval :
    getRenderCandidates idemCfg idemStateW ⟨"0", 0⟩ ⟨0, 10⟩ =
      ⟨idemProj, [⟨"0", 0, true, true, 10⟩], ⟨0, 1⟩, false⟩ := by
  have hbuf : targetBuffer idemCfg idemStateW ⟨0, 10⟩ = ⟨0, 10⟩ := by
    norm_num [targetBuffer, getBufferedViewport, idemCfg, idemStateW]
  have hcand : getSliceForCandidates idemProj ⟨0, 10⟩ = ⟨0, 1⟩ := by
    norm_num [getSliceForCandidates, candidateIndices, Anchor.getRectInViewport,
      Rectangle.doesIntersectWith, Rectangle.getBottom, List.range_succ, idemProj, List.getD]
  have hproj' : getItemsWithPositions idemCfg idemStateW.heights idemStateW.list ⟨"0", 0⟩ =
      idemProj := idemProj_eval
  simp only [getRenderCandidates, hbuf, hproj', hcand]
  have hadj : adjustSlice idemStateW.slice ⟨0, 1⟩
      (idemStateW.isIdle && !idemStateW.isInitialAnchoring) = ⟨0, 1⟩ := by
    show adjustSlice ⟨0, 0⟩ ⟨0, 1⟩ false = ⟨0, 1⟩
    decide
  rw [hadj]
  have hjs : jsSlice idemProj (0 : ℤ) (1 : ℤ) = [⟨"0", 0, true, true, 10⟩] := by
    norm_num [jsSlice, jsSliceIdx, idemProj]
  rw [show (⟨0, 1⟩ : Slice).start = (0 : ℤ) from rfl,
    show (⟨0, 1⟩ : Slice).endIdx = (1 : ℤ) from rfl, hjs]
  rfl

theorem idemUpdateW_eval : (update idemCfg idemStateW (some ⟨0, 10⟩)).1 = idemStateW1 := by
  rw [update_of_anchor idemCfg idemStateW ⟨0, 10⟩ ⟨"0", 0⟩ rfl]
  simp only [updateRenderedItems, idemRCW_eval]
  have hlh : getHeightBetweenItems idemProj.head? idemProj.getLast? = 20 := by
    norm_num [getHeightBetweenItems, idemProj, Anchor.getRectInViewport, Rectangle.getBottom]
  have hready : getIsHeightsReady idemStateW.heights [⟨"0", 0, true, true, 10⟩] = true := by
    norm_num [getIsHeightsReady, mhas, idemStateW, idemHeights]
  have hsc : (decide (idemStateW.slice = (⟨0, 1⟩ : Slice))) = false := by
    show decide ((⟨0, 0⟩ : Slice) = ⟨0, 1⟩) = false
    decide
  simp only [hlh, hready, hsc, idemStateW1, idemStateW]
  rfl

/-- C9 witness: for the same two-item scenario but with the engine *not* idle
(so the buffer selection stays "minimum" across the first run), the second
cycle reproduces the first run's rendered items and slice exactly. -/
theorem C9_idempotent_cycle_witness :
    (update idemCfg (update idemCfg idemStateW (some ⟨0, 10⟩)).1 (some ⟨0, 10⟩)).1.renderedItems =
      (update idemCfg idemStateW (some ⟨0, 10⟩)).1.renderedItems ∧
    (update idemCfg (update idemCfg idemStateW (some ⟨0, 10⟩)).1 (some ⟨0, 10⟩)).1.slice =
      (update idemCfg idemStateW (some ⟨0, 10⟩)).1.slice :=
  C9_idempotent_cycle idemCfg idemStateW ⟨0, 10⟩ (by decide)
    (by rw [idemUpdateW_eval]; rfl) (by rw [idemUpdateW_eval]; decide)


end VirtualScroller
